import Mathlib

/-!
# CombatComponents: socket-interval sweep collision handler and rotating owner

A shallow embedding of `UCCCollisionHandlerComponent`
(`CollisionHandler/CCCollisionHandlerComponent.{h,cpp}`) and the properties of
its activation state machine, socket position cache and sweep trace, followed
by `UCCRotatingOwnerComponent` (`RotatingOwner/CCRotatingOwnerComponent.{h,cpp}`)
and the properties of its rotation task.

Engine objects are handles: a component or an actor is a natural number (its
identity), and everything the engine answers about it (validity, name,
location, class, trace results) is read from an `Env`, the world as it is when
an operation runs. A different `Env` may be supplied at every step, so the
world may change arbitrarily between two operations.

An operation returns the events it broadcast, in order, and the state it left.
`PerformTraceCheck` dereferences `LastFrameSocketLocations.Find` unchecked; a
failed `Find` ends the run, which is recorded as "no state" next to the events
broadcast until then.

Replication bookkeeping (`MARK_PROPERTY_DIRTY_FROM_NAME`) and the editor-only
debug drawing have no effect on the component state or on its events and are
left out. Listeners of the events are taken not to call back into the component
while an operation is running.
-/

namespace CombatComponents

/-! ## Engine types -/

/-- Engine name `FName`, represented by the string it prints as. Two names built
from the same string are the same name (the engine also identifies strings that
differ in case only, which the model keeps apart). -/
abbrev FName := String

/-- The engine constant `NAME_None`; it prints as `None`. -/
def NAME_None : FName := "None"

/-- Engine `FName::IsNone`. -/
def FName.IsNone (n : FName) : Bool := n == NAME_None

/-- Engine `FVector`: an opaque position, three coordinates. -/
structure FVector where
  X : Int
  Y : Int
  Z : Int
  deriving DecidableEq, Repr

/-- Handle of an `AActor` (non-null pointer identity). -/
abbrev AActor := Nat

/-- Handle of a `UPrimitiveComponent` (non-null pointer identity). -/
abbrev UPrimitiveComponent := Nat

/-- Engine `UClass`: a class with the chain of its super classes. -/
inductive UClass where
  | root (name : Nat)
  | derived (name : Nat) (super : UClass)
  deriving DecidableEq, Repr

/-- Engine `UStruct::IsChildOf`: walks the super chain of `this`, looking for
`base`; a class is a child of itself. -/
def UClass.IsChildOf : UClass → UClass → Bool
  | .root n, base => decide (UClass.root n = base)
  | .derived n sup, base => decide (UClass.derived n sup = base) || UClass.IsChildOf sup base

/-- The part of `FHitResult` the handler reads: the hit actor (`GetActor()`, may
be null), the collision profile name of the hit component
(`Component->GetCollisionProfileName()`; a result that has an actor has its
component), and the location. -/
structure FHitResult where
  Actor : Option AActor
  ProfileName : FName
  Location : FVector
  deriving DecidableEq, Repr

/-- `ECCCollisionPart` of the header. -/
inductive ECCCollisionPart where
  | NONE
  | PrimaryItem
  | SecondaryItem
  | BothHandItems
  | LeftArm
  | RightArm
  | LeftLeg
  | RightLeg
  | Custom1
  | Custom2
  | Custom3
  deriving DecidableEq, Repr

/-- `FCCCollidingComponent` of the header: a tracked surface. `Component` may be
null. -/
structure FCCCollidingComponent where
  Component : Option UPrimitiveComponent
  Sockets : List FName
  HitActors : List AActor
  deriving DecidableEq, Repr

/-- Default constructor of `FCCCollidingComponent`: null component, no socket. -/
def FCCCollidingComponent.default : FCCCollidingComponent :=
  { Component := none, Sockets := [], HitActors := [] }

/-- Constructor of `FCCCollidingComponent` taking params: an empty socket array
is replaced by the single name `NAME_None`. -/
def FCCCollidingComponent.make (component : Option UPrimitiveComponent)
    (sockets : List FName) : FCCCollidingComponent :=
  { Component := component
    Sockets := if sockets.length = 0 then sockets ++ [NAME_None] else sockets
    HitActors := [] }

/-- What the engine answers when the handler asks: the world at one instant.
`SphereTraceMultiForObjects start end ignoredActors` is the trace backend; its
radius, object types and complexity flag are settings folded into it. -/
structure Env where
  GetWorld : Bool
  GetOwner : Option AActor
  IsValid : UPrimitiveComponent → Bool
  GetName : UPrimitiveComponent → String
  GetComponentLocation : UPrimitiveComponent → FVector
  GetSocketLocation : UPrimitiveComponent → FName → FVector
  GetClass : AActor → UClass
  SphereTraceMultiForObjects : FVector → FVector → List (Option AActor) → Bool × List FHitResult

/-- The filter settings of the component (public properties). A null entry of
`IgnoredClasses` or `IgnoredActors` is `none`. -/
structure Settings where
  IgnoredClasses : List (Option UClass)
  IgnoredCollisionProfileNames : List FName
  IgnoredActors : List (Option AActor)

/-- Engine `TMap<FName, FVector>` as an association list with unique keys. -/
abbrev TMap := List (FName × FVector)

/-- `TMap::Find`: the value stored under `key`, if any. -/
def TMap.Find : TMap → FName → Option FVector
  | [], _ => none
  | (k, v) :: rest, key => if k = key then some v else TMap.Find rest key

/-- `TMap::Add`: stores `value` under `key`, replacing an existing entry. -/
def TMap.Add : TMap → FName → FVector → TMap
  | [], key, value => [(key, value)]
  | (k, v) :: rest, key, value =>
    if k = key then (key, value) :: rest else (k, v) :: TMap.Add rest key value

/-- The events broadcast to listeners. `Hit` carries, besides the two delegate
arguments, the position in `ActiveCollidingComponents` of the surface that
produced it (bookkeeping of the model, not seen by listeners). -/
inductive Event where
  | Hit (surface : Nat) (hitResult : FHitResult) (collidingComponent : UPrimitiveComponent)
  | CollisionActivated (collisionPart : ECCCollisionPart)
  | CollisionDeactivated
  deriving DecidableEq, Repr

/-- The fields of `UCCCollisionHandlerComponent` that the operations read and
write. `TimerHandle_TraceCheck` is true while the repeating timer is set. -/
structure State where
  ActiveCollidingComponents : List FCCCollidingComponent
  ActivatedCollisionPart : ECCCollisionPart
  bIsCollisionActivated : Bool
  bCanPerformTrace : Bool
  LastFrameSocketLocations : TMap
  TimerHandle_TraceCheck : Bool
  deriving DecidableEq, Repr

/-- A freshly constructed component: engine objects are zero-initialised. -/
def State.initial : State :=
  { ActiveCollidingComponents := []
    ActivatedCollisionPart := ECCCollisionPart.NONE
    bIsCollisionActivated := false
    bCanPerformTrace := false
    LastFrameSocketLocations := []
    TimerHandle_TraceCheck := false }

/-- What an operation does: the events it broadcast, and the state it left, or
`none` when it dereferenced a failed `Find` (the process is gone). Events
broadcast before the fault are kept. -/
abbrev Outcome := List Event × Option State

/-! ## Operations of the handler -/

/-- `FCCCollidingComponent::GetSocketLocation`, for the (non-null) component of
the surface. -/
def FCCCollidingComponent.GetSocketLocation (env : Env) (Component : UPrimitiveComponent)
    (SocketName : FName) : FVector :=
  if FName.IsNone SocketName then env.GetComponentLocation Component
  else env.GetSocketLocation Component SocketName

/-- `GenerateUniqueSocketName`: component name followed by the socket name. -/
def GenerateUniqueSocketName (env : Env) (collidingComponent : UPrimitiveComponent)
    (socket : FName) : FName :=
  (env.GetName collidingComponent).append socket

/-- `IsIgnoredClass`. -/
def IsIgnoredClass (cfg : Settings) (actorClass : UClass) : Bool :=
  cfg.IgnoredClasses.any fun ignoredClass =>
    match ignoredClass with
    | some base => UClass.IsChildOf actorClass base
    | none => false

/-- `IsIgnoredProfileName`. -/
def IsIgnoredProfileName (cfg : Settings) (profileName : FName) : Bool :=
  cfg.IgnoredCollisionProfileNames.contains profileName

/-- Inner loop of `UpdateSocketLocations`: the sockets of one valid component. -/
def sampleSockets (env : Env) (c : UPrimitiveComponent) : List FName → TMap → TMap
  | [], m => m
  | socketName :: rest, m =>
    sampleSockets env c rest
      (TMap.Add m (GenerateUniqueSocketName env c socketName)
        (FCCCollidingComponent.GetSocketLocation env c socketName))

/-- Outer loop of `UpdateSocketLocations`. -/
def sampleComponents (env : Env) : List FCCCollidingComponent → TMap → TMap
  | [], m => m
  | collidingComponent :: rest, m =>
    match collidingComponent.Component with
    | some c =>
      if env.IsValid c then
        sampleComponents env rest (sampleSockets env c collidingComponent.Sockets m)
      else sampleComponents env rest m
    | none => sampleComponents env rest m

/-- `UpdateSocketLocations`. -/
def UpdateSocketLocations (env : Env) (s : State) : State :=
  { s with LastFrameSocketLocations :=
      sampleComponents env s.ActiveCollidingComponents s.LastFrameSocketLocations }

/-- Innermost loop of `PerformTraceCheck`: the hit results of one trace. Returns
the events and the surface's updated `HitActors`. -/
def reportHits (cfg : Settings) (env : Env) (idx : Nat) (c : UPrimitiveComponent) :
    List FHitResult → List AActor → List Event × List AActor
  | [], hitActors => ([], hitActors)
  | hitResult :: rest, hitActors =>
    match hitResult.Actor with
    | some hitActor =>
      if hitActors.contains hitActor == false &&
          IsIgnoredClass cfg (env.GetClass hitActor) == false &&
          IsIgnoredProfileName cfg hitResult.ProfileName == false then
        let r := reportHits cfg env idx c rest (hitActors ++ [hitActor])
        (Event.Hit idx hitResult c :: r.1, r.2)
      else reportHits cfg env idx c rest hitActors
    | none => reportHits cfg env idx c rest hitActors

/-- Socket loop of `PerformTraceCheck` for one valid component. The result is
`none` when `LastFrameSocketLocations.Find` fails and is dereferenced. -/
def traceSockets (cfg : Settings) (env : Env) (cache : TMap) (idx : Nat)
    (c : UPrimitiveComponent) : List FName → List AActor → List Event × Option (List AActor)
  | [], hitActors => ([], some hitActors)
  | socketName :: rest, hitActors =>
    match TMap.Find cache (GenerateUniqueSocketName env c socketName) with
    | none => ([], none)
    | some startTrace =>
      let endTrace := FCCCollidingComponent.GetSocketLocation env c socketName
      let ignoredActors := hitActors.map some ++ [env.GetOwner] ++ cfg.IgnoredActors
      let traced := env.SphereTraceMultiForObjects startTrace endTrace ignoredActors
      let reported :=
        if traced.1 then reportHits cfg env idx c traced.2 hitActors else ([], hitActors)
      let r := traceSockets cfg env cache idx c rest reported.2
      (reported.1 ++ r.1, r.2)

/-- Body of the surface loop of `PerformTraceCheck`: one surface, traced when its
component is valid. Returns the events and the surface's `HitActors`. -/
def traceSurface (cfg : Settings) (env : Env) (cache : TMap) (idx : Nat)
    (collidingComponent : FCCCollidingComponent) : List Event × Option (List AActor) :=
  match collidingComponent.Component with
  | some c =>
    if env.IsValid c then
      traceSockets cfg env cache idx c collidingComponent.Sockets collidingComponent.HitActors
    else ([], some collidingComponent.HitActors)
  | none => ([], some collidingComponent.HitActors)

/-- Surface loop of `PerformTraceCheck`; `idx` is the position of the head of
the list in the registry. -/
def traceComponents (cfg : Settings) (env : Env) (cache : TMap) :
    Nat → List FCCCollidingComponent → List Event × Option (List FCCCollidingComponent)
  | _, [] => ([], some [])
  | idx, collidingComponent :: rest =>
    match traceSurface cfg env cache idx collidingComponent with
    | (ev, none) => (ev, none)
    | (ev, some hitActors) =>
      let r := traceComponents cfg env cache (idx + 1) rest
      (ev ++ r.1, r.2.map fun l => { collidingComponent with HitActors := hitActors } :: l)

/-- `PerformTraceCheck`. -/
def PerformTraceCheck (cfg : Settings) (env : Env) (s : State) : Outcome :=
  let r := traceComponents cfg env s.LastFrameSocketLocations 0 s.ActiveCollidingComponents
  (r.1, r.2.map fun l => { s with ActiveCollidingComponents := l })

/-- `TraceCheckLoop`. -/
def TraceCheckLoop (cfg : Settings) (env : Env) (s : State) : Outcome :=
  let traced : Outcome := if s.bCanPerformTrace then PerformTraceCheck cfg env s else ([], some s)
  (traced.1, traced.2.map fun s1 => { UpdateSocketLocations env s1 with bCanPerformTrace := true })

/-- `ClearHitActors`. -/
def ClearHitActors (s : State) : State :=
  { s with ActiveCollidingComponents :=
      s.ActiveCollidingComponents.map fun collidingComponent =>
        { collidingComponent with HitActors := [] } }

/-- `UpdateCollidingComponents`. -/
def UpdateCollidingComponents (env : Env) (collidingComponents : List FCCCollidingComponent)
    (s : State) : State :=
  UpdateSocketLocations env
    (ClearHitActors { s with ActiveCollidingComponents := collidingComponents })

/-- `UpdateCollidingComponent`. -/
def UpdateCollidingComponent (env : Env) (component : Option UPrimitiveComponent)
    (sockets : List FName) (s : State) : State :=
  UpdateCollidingComponents env [FCCCollidingComponent.make component sockets] s

/-- `SetActiveCollisionPart`. -/
def SetActiveCollisionPart (CollisionPart : ECCCollisionPart) (s : State) : State :=
  if s.ActivatedCollisionPart ≠ CollisionPart then
    { s with ActivatedCollisionPart := CollisionPart }
  else s

/-- `OnRep_IsCollisionActivated`. -/
def OnRep_IsCollisionActivated (cfg : Settings) (env : Env) (s : State) : Outcome :=
  if s.bIsCollisionActivated then
    let s1 := ClearHitActors s
    let started := Event.CollisionActivated s1.ActivatedCollisionPart
    if env.GetWorld then
      let r := TraceCheckLoop cfg env s1
      (started :: r.1, r.2.map fun s2 => { s2 with TimerHandle_TraceCheck := true })
    else ([started], some s1)
  else
    let s1 := { s with bCanPerformTrace := false }
    ([Event.CollisionDeactivated],
      some (if env.GetWorld then { s1 with TimerHandle_TraceCheck := false } else s1))

/-- `ActivateCollision`. -/
def ActivateCollision (cfg : Settings) (env : Env) (collisionPart : ECCCollisionPart)
    (s : State) : Outcome :=
  let s1 := SetActiveCollisionPart collisionPart s
  if s1.bIsCollisionActivated == false then
    OnRep_IsCollisionActivated cfg env { s1 with bIsCollisionActivated := true }
  else ([], some s1)

/-- `DeactivateCollision`. -/
def DeactivateCollision (cfg : Settings) (env : Env) (s : State) : Outcome :=
  if s.bIsCollisionActivated then
    OnRep_IsCollisionActivated cfg env { s with bIsCollisionActivated := false }
  else ([], some s)

/-! ## Runs of the component -/

/-- The calls a host can make on the component; `Tick` is the repeating timer
firing `TraceCheckLoop`. -/
inductive Action where
  | ActivateCollision (collisionPart : ECCCollisionPart)
  | DeactivateCollision
  | SetActiveCollisionPart (collisionPart : ECCCollisionPart)
  | UpdateCollidingComponent (component : Option UPrimitiveComponent) (sockets : List FName)
  | UpdateCollidingComponents (collidingComponents : List FCCCollidingComponent)
  | ClearHitActors
  | Tick
  deriving DecidableEq, Repr

/-- One call, made in the world `env`. -/
def step (cfg : Settings) (env : Env) (a : Action) (s : State) : Outcome :=
  match a with
  | .ActivateCollision p => ActivateCollision cfg env p s
  | .DeactivateCollision => DeactivateCollision cfg env s
  | .SetActiveCollisionPart p => ([], some (SetActiveCollisionPart p s))
  | .UpdateCollidingComponent c sockets => ([], some (UpdateCollidingComponent env c sockets s))
  | .UpdateCollidingComponents l => ([], some (UpdateCollidingComponents env l s))
  | .ClearHitActors => ([], some (ClearHitActors s))
  | .Tick => TraceCheckLoop cfg env s

/-- A sequence of calls, each in its own world; stops at a fault. -/
def run (cfg : Settings) : State → List (Env × Action) → Outcome
  | s, [] => ([], some s)
  | s, (env, a) :: rest =>
    match step cfg env a s with
    | (ev, none) => (ev, none)
    | (ev, some s1) =>
      let r := run cfg s1 rest
      (ev ++ r.1, r.2)

/-! ## Vocabulary of the properties -/

/-- An activation-started event (`OnCollisionActivated`). -/
def Event.isActivationStarted : Event → Bool
  | .CollisionActivated _ => true
  | _ => false

/-- A hit event (`OnHit`). -/
def Event.isHit : Event → Bool
  | .Hit _ _ _ => true
  | _ => false

/-- Number of activation-started events in a log. -/
def activationStartedCount (log : List Event) : Nat :=
  log.countP Event.isActivationStarted

/-- Whether the call is an `ActivateCollision`. -/
def Action.isActivate : Action → Bool
  | .ActivateCollision _ => true
  | _ => false

/-- Number of `ActivateCollision` calls of a run that are made while the
component is Inactive (the Inactive to Active transitions). -/
def inactiveActivations (cfg : Settings) : State → List (Env × Action) → Nat
  | _, [] => 0
  | s, (env, a) :: rest =>
    (if a.isActivate && !s.bIsCollisionActivated then 1 else 0) +
      match (step cfg env a s).2 with
      | some s1 => inactiveActivations cfg s1 rest
      | none => 0

/-- A hit event emitted for the surface at position `idx` and the actor `a`. -/
def Event.isHitOf (idx : Nat) (a : AActor) : Event → Bool
  | .Hit i hitResult _ => i == idx && hitResult.Actor == some a
  | _ => false

/-- Number of hit events of a log for the pair (surface `idx`, actor `a`). -/
def hitCount (idx : Nat) (a : AActor) (log : List Event) : Nat :=
  log.countP (Event.isHitOf idx a)

/-- The `HitActors` record of the surface at position `j` of a registry (empty
when there is no such surface). -/
def hitActorsAt (l : List FCCCollidingComponent) (j : Nat) : List AActor :=
  match l[j]? with
  | some collidingComponent => collidingComponent.HitActors
  | none => []

/-- The calls that leave an activation window open: cadence ticks and tag
changes (`SetActiveCollisionPart`, or `ActivateCollision` on the Active
component). -/
def Action.inWindow : Action → Bool
  | .Tick => true
  | .SetActiveCollisionPart _ => true
  | .ActivateCollision _ => true
  | _ => false

/-- How a piece of `PerformTraceCheck` treats the actor `a` on one surface: `n`
hit events for `a`, with `before` the record at entry and `after` the record at
exit (`none` after a fault). At most one event, none if `a` was recorded, and
`a` is recorded afterwards if it was before or if it was reported. -/
def FreshFor (a : AActor) (before : List AActor) (n : Nat) (after : Option (List AActor)) : Prop :=
  n ≤ 1 ∧ (a ∈ before → n = 0) ∧
    ∀ r, after = some r → (a ∈ before → a ∈ r) ∧ (n = 1 → a ∈ r)

/-- Whether the call is a cadence tick. -/
def Action.isTick : Action → Bool
  | .Tick => true
  | _ => false

/-- The cadence ticks of the run all occur while the component is Active. -/
def ticksOnlyWhileActive (cfg : Settings) : State → List (Env × Action) → Bool
  | _, [] => true
  | s, (env, a) :: rest =>
    (!a.isTick || s.bIsCollisionActivated) &&
      match (step cfg env a s).2 with
      | some s1 => ticksOnlyWhileActive cfg s1 rest
      | none => true

/-- Number of `TraceCheckLoop` calls made since the activation window in force
at the end of the run was opened, `n` being that number at the start of the
run. An `ActivateCollision` made while Inactive opens a window and calls
`TraceCheckLoop` once when the component has a world; a cadence tick calls it
once. -/
def windowLoops (cfg : Settings) : State → Nat → List (Env × Action) → Nat
  | _, n, [] => n
  | s, n, (env, a) :: rest =>
    match (step cfg env a s).2 with
    | none => n
    | some s1 =>
      windowLoops cfg s1
        (match a with
          | .ActivateCollision _ =>
            if s.bIsCollisionActivated then n else if env.GetWorld then 1 else 0
          | .Tick => n + 1
          | _ => n)
        rest

/-- The state left by an `ActivateCollision p` that opens a window in a world:
hit records cleared, positions resampled once, cadence timer set. -/
def openedWindow (env : Env) (p : ECCCollisionPart) (s : State) : State :=
  { UpdateSocketLocations env
      (ClearHitActors { SetActiveCollisionPart p s with bIsCollisionActivated := true }) with
    bCanPerformTrace := true
    TimerHandle_TraceCheck := true }

/-- The cache holds a position for every tracked point of every surface of the
registry whose component is valid in `env`, under the key the point has in
`env`. -/
def CacheCovers (env : Env) (s : State) : Prop :=
  ∀ surf ∈ s.ActiveCollidingComponents, ∀ c, surf.Component = some c → env.IsValid c = true →
    ∀ sock ∈ surf.Sockets,
      (TMap.Find s.LastFrameSocketLocations (GenerateUniqueSocketName env c sock)).isSome = true

/-- A component of the registry `l` that is valid in `env` was valid, with the
same name, in `prev`. -/
def ValidSince (prev env : Env) (l : List FCCCollidingComponent) : Prop :=
  ∀ surf ∈ l, ∀ c, surf.Component = some c → env.IsValid c = true →
    prev.IsValid c = true ∧ prev.GetName c = env.GetName c

/-- Whether the call `a`, made in the state `s` and the world `env`, resamples
the socket positions (runs `UpdateSocketLocations`). -/
def Action.resamples (env : Env) (s : State) : Action → Bool
  | .Tick => true
  | .UpdateCollidingComponent _ _ => true
  | .UpdateCollidingComponents _ => true
  | .ActivateCollision _ => !s.bIsCollisionActivated && env.GetWorld
  | _ => false

/-- Whether the call `a`, made in the state `s` and the world `env`, runs
`PerformTraceCheck`. -/
def Action.traces (env : Env) (s : State) : Action → Bool
  | .Tick => s.bCanPerformTrace
  | .ActivateCollision _ => !s.bIsCollisionActivated && env.GetWorld && s.bCanPerformTrace
  | _ => false

/-- Along the run, whenever `PerformTraceCheck` runs, a tracked component that is
valid then was valid, with the same name, at the preceding resample (`last` is
the world of the preceding resample, if there was one). -/
def ValidSinceResample (cfg : Settings) : Option Env → State → List (Env × Action) → Prop
  | _, _, [] => True
  | last, s, (env, a) :: rest =>
    (a.traces env s = true →
      ∀ prev, last = some prev → ValidSince prev env s.ActiveCollidingComponents) ∧
      match (step cfg env a s).2 with
      | some s1 => ValidSinceResample cfg (if a.resamples env s then some env else last) s1 rest
      | none => True

/-- The world of the last resample of a run (`last` if the run has none). -/
def lastResample (cfg : Settings) : Option Env → State → List (Env × Action) → Option Env
  | last, _, [] => last
  | last, s, (env, a) :: rest =>
    match (step cfg env a s).2 with
    | some s1 => lastResample cfg (if a.resamples env s then some env else last) s1 rest
    | none => last

/-- What is known of the cache after a run whose last resample was made in the
world `last`: it covers the registry as seen then; before any resample the
registry is empty. -/
def SampledAt (last : Option Env) (s : State) : Prop :=
  match last with
  | some prev => CacheCovers prev s
  | none => s.ActiveCollidingComponents = []

/-- A hit event whose actor is neither of an ignored class nor hit on a component
with an ignored collision profile. -/
def Event.qualifies (cfg : Settings) (env : Env) : Event → Bool
  | .Hit _ hitResult _ =>
    match hitResult.Actor with
    | some hitActor =>
      !IsIgnoredClass cfg (env.GetClass hitActor) && !IsIgnoredProfileName cfg hitResult.ProfileName
    | none => false
  | _ => false

/-! ## Concrete worlds used to instantiate the properties -/

/-- Settings ignoring the class `derived 1 (root 0)` and the profile `Pawn`. -/
def demoSettings : Settings :=
  { IgnoredClasses := [some (UClass.derived 1 (UClass.root 0))]
    IgnoredCollisionProfileNames := ["Pawn"]
    IgnoredActors := [] }

/-- A world where component 0 is named `Sword` and the others `Shield`, every
component is valid and sits at the origin, and every trace hits actor 7. -/
def demoWorld : Env :=
  { GetWorld := true
    GetOwner := some 100
    IsValid := fun _ => true
    GetName := fun c => if c = 0 then "Sword" else "Shield"
    GetComponentLocation := fun _ => ⟨0, 0, 0⟩
    GetSocketLocation := fun _ _ => ⟨1, 0, 0⟩
    GetClass := fun _ => UClass.root 0
    SphereTraceMultiForObjects := fun _ _ _ => (true, [⟨some 7, "CharacterMesh", ⟨0, 0, 0⟩⟩]) }

/-- The same objects seen by a component that has no world (`GetWorld()` is
null), after they moved to (5, 5, 5). -/
def demoNoWorld : Env :=
  { demoWorld with
    GetWorld := false
    GetComponentLocation := fun _ => ⟨5, 5, 5⟩ }

/-- The same world with a trace backend that never reports a hit. -/
def demoQuiet : Env :=
  { demoWorld with SphereTraceMultiForObjects := fun _ _ _ => (false, []) }

/-- A short session: register the sword, open a window, tick once, close. -/
def demoSession : List (Env × Action) :=
  [(demoWorld, Action.UpdateCollidingComponent (some 0) []),
   (demoWorld, Action.ActivateCollision ECCCollisionPart.PrimaryItem),
   (demoWorld, Action.Tick),
   (demoWorld, Action.DeactivateCollision)]

/-- The state the session ends in. -/
def demoSessionEnd : State :=
  { ActiveCollidingComponents := [{ Component := some 0, Sockets := ["None"], HitActors := [7] }]
    ActivatedCollisionPart := ECCCollisionPart.PrimaryItem
    bIsCollisionActivated := false
    bCanPerformTrace := false
    LastFrameSocketLocations := [("SwordNone", ⟨0, 0, 0⟩)]
    TimerHandle_TraceCheck := false }

/-- An Active component tracking the sword, actor 7 already hit. -/
def demoActive : State :=
  { ActiveCollidingComponents := [{ Component := some 0, Sockets := ["None"], HitActors := [7] }]
    ActivatedCollisionPart := ECCCollisionPart.PrimaryItem
    bIsCollisionActivated := true
    bCanPerformTrace := true
    LastFrameSocketLocations := [("SwordNone", ⟨0, 0, 0⟩)]
    TimerHandle_TraceCheck := true }

/-- A world where component 0 is named `Sword` and component 1 `Sword1`, with
their sockets at different places. -/
def demoNames : Env :=
  { demoWorld with
    GetName := fun c => if c = 0 then "Sword" else "Sword1"
    GetSocketLocation := fun c _ => if c = 0 then ⟨1, 0, 0⟩ else ⟨2, 0, 0⟩ }

/-- An open window's worth of calls: tick, change the tag, tick again. -/
def demoWindow : List (Env × Action) :=
  [(demoWorld, Action.Tick),
   (demoWorld, Action.SetActiveCollisionPart ECCCollisionPart.LeftArm),
   (demoWorld, Action.ActivateCollision ECCCollisionPart.RightArm),
   (demoWorld, Action.Tick)]

/-! ## The rotating-owner component

`UCCRotatingOwnerComponent` (`RotatingOwner/CCRotatingOwnerComponent.{h,cpp}`).
The C++ `float` is a type `F` of which only the order, the addition and the
division that the code uses are assumed, so that rounding is allowed (NaN is
left out); `FRotator` is an opaque type `R`. -/

/-- The owning actor as `TickComponent` sees it: whether its class implements
`UCCRotatingOwnerInterface`, what `GetDesiredRotation` answers, and its current
rotation. -/
structure RotatingOwnerActor (R : Type) where
  ImplementsInterface : Bool
  GetDesiredRotation : R
  GetActorRotation : R

/-- What the engine answers during one call: the owner (may be null) and the
function `UKismetMathLibrary::RInterpTo_Constant current target deltaTime
interpSpeed`. -/
structure RotatingEnv (F R : Type) where
  GetOwner : Option (RotatingOwnerActor R)
  RInterpTo_Constant : R → R → F → F → R

/-- The events of the rotating-owner component: the two broadcasts, and the
rotation applied to the owner (`SetActorRotation`). -/
inductive RotatingEvent (R : Type) where
  | RotatingStart
  | RotatingEnd
  | SetActorRotation (newRotation : R)
  deriving DecidableEq, Repr

/-- The fields of `UCCRotatingOwnerComponent`; `ComponentTickEnabled` is what
`SetComponentTickEnabled` last set. -/
structure RotatingOwner (F : Type) where
  bIsRotating : Bool
  TimeElapsed : F
  RotatingTime : F
  DegreesPerSecond : F
  ComponentTickEnabled : Bool
  deriving DecidableEq, Repr

/-- A freshly constructed component: not rotating, 540 degrees per second, tick
disabled, the other fields zero-initialised. -/
def RotatingOwner.initial {F : Type} [Zero F] [NatCast F] : RotatingOwner F :=
  { bIsRotating := false
    TimeElapsed := 0
    RotatingTime := 0
    DegreesPerSecond := ((540 : Nat) : F)
    ComponentTickEnabled := false }

/-- What an operation that cannot fail does: its events and the state it left. -/
abbrev RotatingResult (F R : Type) := List (RotatingEvent R) × RotatingOwner F

/-- What an operation of the rotating-owner component does: its events, and the
state it left, or `none` when it dereferenced a null owner. -/
abbrev RotatingOutcome (F R : Type) := List (RotatingEvent R) × Option (RotatingOwner F)

/-- `SetOwnerRotation`: `GetOwner()->SetActorRotation(newRotation)`; `none` when
the owner is null. -/
def SetOwnerRotation {F R : Type} (env : RotatingEnv F R) (newRotation : R) :
    Option (List (RotatingEvent R)) :=
  match env.GetOwner with
  | some _ => some [RotatingEvent.SetActorRotation newRotation]
  | none => none

/-- `StartRotating`. -/
def StartRotating {F R : Type} [Zero F] (time degressPerSecond : F) (c : RotatingOwner F) :
    RotatingResult F R :=
  ([RotatingEvent.RotatingStart],
    { c with
      RotatingTime := time
      DegreesPerSecond := degressPerSecond
      TimeElapsed := 0
      bIsRotating := true
      ComponentTickEnabled := true })

/-- `StartRotatingWithLimit`. -/
def StartRotatingWithLimit {F R : Type} [Zero F] [Div F] (maxPossibleRotation degressPerSecond : F)
    (c : RotatingOwner F) : RotatingResult F R :=
  let time := maxPossibleRotation / degressPerSecond
  StartRotating time degressPerSecond c

/-- `StopRotating`. -/
def StopRotating {F R : Type} (c : RotatingOwner F) : RotatingResult F R :=
  ([RotatingEvent.RotatingEnd],
    { c with bIsRotating := false, ComponentTickEnabled := false })

/-- An operation that ran to its end. -/
def completed {F R : Type} (r : RotatingResult F R) : RotatingOutcome F R :=
  (r.1, some r.2)

/-- `TickComponent`. -/
def TickComponent {F R : Type} [Add F] [LinearOrder F] (DeltaTime : F) (env : RotatingEnv F R)
    (c : RotatingOwner F) : RotatingOutcome F R :=
  if c.bIsRotating then
    match env.GetOwner with
    | some owner =>
      if owner.ImplementsInterface then
        let targetRotation := owner.GetDesiredRotation
        let currentRotation := owner.GetActorRotation
        let newRotation :=
          env.RInterpTo_Constant currentRotation targetRotation DeltaTime c.DegreesPerSecond
        let c1 := { c with TimeElapsed := c.TimeElapsed + DeltaTime }
        if c1.TimeElapsed ≤ c1.RotatingTime then
          match SetOwnerRotation env newRotation with
          | some ev => (ev, some c1)
          | none => ([], none)
        else completed (StopRotating c1)
      else completed (StopRotating c)
    | none => completed (StopRotating c)
  else ([], some c)

/-- A sequence of frames, each with its delta time and its world; stops at a
fault. -/
def runTicks {F R : Type} [Add F] [LinearOrder F] :
    RotatingOwner F → List (F × RotatingEnv F R) → RotatingOutcome F R
  | c, [] => ([], some c)
  | c, (DeltaTime, env) :: rest =>
    match TickComponent DeltaTime env c with
    | (ev, none) => (ev, none)
    | (ev, some c1) =>
      let r := runTicks c1 rest
      (ev ++ r.1, r.2)

/-- The calls a host can make on the rotating-owner component; `TickComponent` is
the engine ticking it. -/
inductive RotatingAction (F : Type) where
  | StartRotating (time degressPerSecond : F)
  | StartRotatingWithLimit (maxPossibleRotation degressPerSecond : F)
  | StopRotating
  | TickComponent (DeltaTime : F)
  deriving DecidableEq, Repr

/-- One call on the rotating-owner component, made in the world `env`. -/
def rotatingStep {F R : Type} [Add F] [LinearOrder F] [Zero F] [Div F] (env : RotatingEnv F R)
    (a : RotatingAction F) (c : RotatingOwner F) : RotatingOutcome F R :=
  match a with
  | .StartRotating time rate => completed (StartRotating time rate c)
  | .StartRotatingWithLimit m rate => completed (StartRotatingWithLimit m rate c)
  | .StopRotating => completed (StopRotating c)
  | .TickComponent DeltaTime => TickComponent DeltaTime env c

/-- A sequence of calls on the rotating-owner component, each in its own world;
stops at a fault. -/
def rotatingRun {F R : Type} [Add F] [LinearOrder F] [Zero F] [Div F] :
    RotatingOwner F → List (RotatingEnv F R × RotatingAction F) → RotatingOutcome F R
  | c, [] => ([], some c)
  | c, (env, a) :: rest =>
    match rotatingStep env a c with
    | (ev, none) => (ev, none)
    | (ev, some c1) =>
      let r := rotatingRun c1 rest
      (ev ++ r.1, r.2)

/-- The elapsed time the component accumulates over the frames, starting from
`e`: `((e + d1) + d2) + ...`. -/
def elapsedFrom {F R : Type} [Add F] (e : F) (ticks : List (F × RotatingEnv F R)) : F :=
  (ticks.map Prod.fst).foldl (· + ·) e

/-- The elapsed time the component accumulates over the frames, starting from
zero as `StartRotating` leaves it. -/
def elapsed {F R : Type} [Add F] [Zero F] (ticks : List (F × RotatingEnv F R)) : F :=
  elapsedFrom 0 ticks

/-- The owner is there and implements the desired-rotation interface. -/
def RotatingEnv.supplies {F R : Type} (env : RotatingEnv F R) : Bool :=
  match env.GetOwner with
  | some owner => owner.ImplementsInterface
  | none => false

/-- A rotation-ended event. -/
def RotatingEvent.isEnd {R : Type} : RotatingEvent R → Bool
  | .RotatingEnd => true
  | _ => false

/-- Number of rotation-ended events in a log. -/
def rotatingEndCount {R : Type} (log : List (RotatingEvent R)) : Nat :=
  log.countP RotatingEvent.isEnd

/-- An owner facing 0 that wants to face 90 (rotations are yaw angles here). -/
def demoOwner : RotatingOwnerActor Int :=
  { ImplementsInterface := true, GetDesiredRotation := 90, GetActorRotation := 0 }

/-- A world with that owner; times are whole milliseconds and the interpolation
jumps to the target. -/
def demoRotatingWorld : RotatingEnv Int Int :=
  { GetOwner := some demoOwner
    RInterpTo_Constant := fun _ target _ _ => target }

/-- A world in which the component has no owner. -/
def demoNoOwner : RotatingEnv Int Int :=
  { GetOwner := none
    RInterpTo_Constant := fun _ target _ _ => target }

/-- A component that is not rotating. -/
def demoIdle : RotatingOwner Int :=
  { bIsRotating := false
    TimeElapsed := 0
    RotatingTime := 0
    DegreesPerSecond := 540
    ComponentTickEnabled := false }

/-- A task that was started for one second and stopped at once. -/
def demoStopped : RotatingOwner Int :=
  { bIsRotating := false
    TimeElapsed := 0
    RotatingTime := 1000
    DegreesPerSecond := 540
    ComponentTickEnabled := false }

/-- A rotation task started for one second (1000 ms), 250 ms in. -/
def demoRotating : RotatingOwner Int :=
  { bIsRotating := true
    TimeElapsed := 250
    RotatingTime := 1000
    DegreesPerSecond := 540
    ComponentTickEnabled := true }

/-- The task `StartRotating 1000 540` leaves. -/
def demoStarted : RotatingOwner Int :=
  { bIsRotating := true
    TimeElapsed := 0
    RotatingTime := 1000
    DegreesPerSecond := 540
    ComponentTickEnabled := true }

/-- Three frames of 400 ms each in the world with the owner. -/
def demoFrames : List (Int × RotatingEnv Int Int) :=
  [(400, demoRotatingWorld), (400, demoRotatingWorld), (400, demoRotatingWorld)]

/-! ## C++ `float` on whole numbers

The `float` values that are non-negative whole numbers, with the addition of the
machine: the exact sum rounded to a 24-bit significand, ties to even (IEEE 754
binary32). Used to run the rotating-owner component with rounding. -/

/-- The gap between neighbouring `float` values around `n`: 1 below 2^24, and
doubling with every doubling of `n` from there. The first argument bounds the
number of doublings; 128 covers every finite `float`. -/
def floatSpacing : Nat → Nat → Nat
  | 0, _ => 1
  | fuel + 1, n => if n < 16777216 then 1 else 2 * floatSpacing fuel (n / 2)

/-- Rounds a whole number to the nearest one that a `float` holds (24-bit
significand, ties to even). -/
def roundToFloat (n : Nat) : Nat :=
  let spacing := floatSpacing 128 n
  let q := n / spacing
  let r := n % spacing
  if 2 * r < spacing then q * spacing
  else if spacing < 2 * r then (q + 1) * spacing
  else if q % 2 = 0 then q * spacing
  else (q + 1) * spacing

/-- A `float` holding a non-negative whole number. -/
structure WholeFloat where
  value : Nat
  deriving DecidableEq, Repr

instance : Zero WholeFloat := ⟨⟨0⟩⟩

instance : Add WholeFloat := ⟨fun a b => ⟨roundToFloat (a.value + b.value)⟩⟩

instance : LinearOrder WholeFloat :=
  LinearOrder.lift' WholeFloat.value (fun a b h => by cases a; cases b; simp_all)

/-- A world with the demo owner, in `float` seconds. -/
def floatWorld : RotatingEnv WholeFloat Int :=
  { GetOwner := some demoOwner
    RInterpTo_Constant := fun _ target _ _ => target }

/-- A component that is not rotating, in `float` seconds. -/
def floatIdle : RotatingOwner WholeFloat :=
  { bIsRotating := false
    TimeElapsed := 0
    RotatingTime := 0
    DegreesPerSecond := ⟨540⟩
    ComponentTickEnabled := false }

/-- One frame of 16777216 seconds followed by three frames of one second. -/
def floatFrames : List (WholeFloat × RotatingEnv WholeFloat Int) :=
  [(⟨16777216⟩, floatWorld), (⟨1⟩, floatWorld), (⟨1⟩, floatWorld), (⟨1⟩, floatWorld)]

/-- The samples a resample of the registry `l` takes in the world `env`, in the
order it takes them: the key and the position of every tracked point of every
valid component. -/
def trackedPoints (env : Env) : List FCCCollidingComponent → List (FName × FVector)
  | [] => []
  | collidingComponent :: rest =>
    (match collidingComponent.Component with
      | some c =>
        if env.IsValid c then
          collidingComponent.Sockets.map fun socketName =>
            (GenerateUniqueSocketName env c socketName,
              FCCCollidingComponent.GetSocketLocation env c socketName)
        else []
      | none => []) ++ trackedPoints env rest

/-- What is stored under `key` once the samples `pts` have been written in
order: the position of the last sample taken under `key`, or `old` (what was
there before) if none of the samples has that key. -/
def lastSampleOr (old : Option FVector) : List (FName × FVector) → FName → Option FVector
  | [], _ => old
  | (k, v) :: rest, key => lastSampleOr (if k = key then some v else old) rest key

/-- The actors of the hit events of a log that are emitted for the surface at
position `idx`, in order. -/
def actorsOfSurface (idx : Nat) (log : List Event) : List AActor :=
  log.filterMap fun e =>
    match e with
    | .Hit i hitResult _ => if i = idx then hitResult.Actor else none
    | _ => none

/-- The sweep of one tracked point: what the trace backend answers for the point
`socketName` of the component `c`, swept from `startTrace` to its current
position when `recorded` are the actors already hit by the surface. -/
def sweepOf (cfg : Settings) (env : Env) (c : UPrimitiveComponent) (socketName : FName)
    (startTrace : FVector) (recorded : List AActor) : Bool × List FHitResult :=
  env.SphereTraceMultiForObjects startTrace
    (FCCCollidingComponent.GetSocketLocation env c socketName)
    (recorded.map some ++ [env.GetOwner] ++ cfg.IgnoredActors)

/-- The event `e` reports a result of the trace backend: a hit result, with an
actor of a class and on a profile that are not ignored, that the backend
returned for the sweep of a tracked point of `surf` (the surface at position
`idx`, its component valid) from the position cached for that point, the surface
having recorded `surf.HitActors ++ added` by then and the actor not being among
them. -/
def SweptHit (cfg : Settings) (env : Env) (cache : TMap) (idx : Nat)
    (surf : FCCCollidingComponent) (e : Event) : Prop :=
  ∃ c socketName startTrace added hitResult hitActor,
    surf.Component = some c ∧ env.IsValid c = true ∧ socketName ∈ surf.Sockets ∧
    TMap.Find cache (GenerateUniqueSocketName env c socketName) = some startTrace ∧
    (sweepOf cfg env c socketName startTrace (surf.HitActors ++ added)).1 = true ∧
    hitResult ∈ (sweepOf cfg env c socketName startTrace (surf.HitActors ++ added)).2 ∧
    e = Event.Hit idx hitResult c ∧ hitResult.Actor = some hitActor ∧
    hitActor ∉ surf.HitActors ++ added ∧
    IsIgnoredClass cfg (env.GetClass hitActor) = false ∧
    IsIgnoredProfileName cfg hitResult.ProfileName = false

/-- The trace backend reports the actor `a` for the sweep of the point
`socketName` of `c` from `startTrace`, on a profile that is not ignored,
whenever the surface has not recorded `a` yet. -/
def BackendReports (cfg : Settings) (env : Env) (c : UPrimitiveComponent) (socketName : FName)
    (startTrace : FVector) (a : AActor) : Prop :=
  ∀ recorded : List AActor, a ∉ recorded →
    (sweepOf cfg env c socketName startTrace recorded).1 = true ∧
    ∃ hitResult ∈ (sweepOf cfg env c socketName startTrace recorded).2,
      hitResult.Actor = some a ∧ IsIgnoredProfileName cfg hitResult.ProfileName = false

/-! ## Events of a trace check -/

theorem reportHits_events (cfg : Settings) (env : Env) (idx : Nat) (c : UPrimitiveComponent)
    (hits : List FHitResult) :
    ∀ hitActors, ∀ e ∈ (reportHits cfg env idx c hits hitActors).1,
      ∃ h, e = Event.Hit idx h c := by
  induction hits with
  | nil => intro hitActors e he; simp [reportHits] at he
  | cons h rest ih =>
    intro hitActors e he
    unfold reportHits at he
    split at he
    · split at he
      · simp only [List.mem_cons] at he
        rcases he with rfl | he
        · exact ⟨h, rfl⟩
        · exact ih _ e he
      · exact ih _ e he
    · exact ih _ e he

theorem traceSockets_events (cfg : Settings) (env : Env) (cache : TMap) (idx : Nat)
    (c : UPrimitiveComponent) (sockets : List FName) :
    ∀ hitActors, ∀ e ∈ (traceSockets cfg env cache idx c sockets hitActors).1,
      ∃ h, e = Event.Hit idx h c := by
  induction sockets with
  | nil => intro hitActors e he; simp [traceSockets] at he
  | cons sock rest ih =>
    intro hitActors e he
    unfold traceSockets at he
    split at he
    · simp at he
    · simp only [List.mem_append] at he
      rcases he with he | he
      · split at he
        · exact reportHits_events cfg env idx c _ _ e he
        · simp at he
      · exact ih _ e he

theorem traceSurface_events (cfg : Settings) (env : Env) (cache : TMap) (idx : Nat)
    (surf : FCCCollidingComponent) :
    ∀ e ∈ (traceSurface cfg env cache idx surf).1, ∃ h c, e = Event.Hit idx h c := by
  intro e he
  unfold traceSurface at he
  split at he
  · rename_i c _
    split at he
    · obtain ⟨h, rfl⟩ := traceSockets_events cfg env cache idx c _ _ e he
      exact ⟨h, c, rfl⟩
    · simp at he
  · simp at he

theorem traceComponents_events (cfg : Settings) (env : Env) (cache : TMap)
    (l : List FCCCollidingComponent) :
    ∀ k, ∀ e ∈ (traceComponents cfg env cache k l).1,
      ∃ i h c, k ≤ i ∧ e = Event.Hit i h c := by
  induction l with
  | nil => intro k e he; simp [traceComponents] at he
  | cons surf rest ih =>
    intro k e he
    have hhere := traceSurface_events cfg env cache k surf
    unfold traceComponents at he
    rcases hs : traceSurface cfg env cache k surf with ⟨ev, _ | ha⟩
    · rw [hs] at he hhere
      obtain ⟨h, c, rfl⟩ := hhere e he
      exact ⟨k, h, c, le_refl k, rfl⟩
    · rw [hs] at he hhere
      simp only [List.mem_append] at he
      rcases he with he | he
      · obtain ⟨h, c, rfl⟩ := hhere e he
        exact ⟨k, h, c, le_refl k, rfl⟩
      · obtain ⟨i, h, c, hle, rfl⟩ := ih (k + 1) e he
        exact ⟨i, h, c, by omega, rfl⟩

theorem traceComponents_isHit (cfg : Settings) (env : Env) (cache : TMap)
    (l : List FCCCollidingComponent) :
    ∀ idx, ∀ e ∈ (traceComponents cfg env cache idx l).1, e.isHit = true := by
  intro idx e he
  obtain ⟨i, h, c, _, rfl⟩ := traceComponents_events cfg env cache l idx e he
  rfl

theorem PerformTraceCheck_isHit (cfg : Settings) (env : Env) (s : State) :
    ∀ e ∈ (PerformTraceCheck cfg env s).1, e.isHit = true := by
  intro e he
  exact traceComponents_isHit cfg env _ _ 0 e he

theorem TraceCheckLoop_isHit (cfg : Settings) (env : Env) (s : State) :
    ∀ e ∈ (TraceCheckLoop cfg env s).1, e.isHit = true := by
  intro e he
  unfold TraceCheckLoop at he
  simp only at he
  split at he
  · exact PerformTraceCheck_isHit cfg env s e he
  · simp at he

theorem activationStartedCount_of_isHit (log : List Event)
    (h : ∀ e ∈ log, e.isHit = true) : activationStartedCount log = 0 := by
  unfold activationStartedCount
  rw [List.countP_eq_zero]
  intro e he
  have := h e he
  cases e <;> simp_all [Event.isHit, Event.isActivationStarted]

/-! ## C1: activation-started events -/

theorem activationStartedCount_append (l1 l2 : List Event) :
    activationStartedCount (l1 ++ l2) = activationStartedCount l1 + activationStartedCount l2 := by
  simp [activationStartedCount, List.countP_append]

theorem ActivateCollision_active (cfg : Settings) (env : Env) (p : ECCCollisionPart) (s : State)
    (h : s.bIsCollisionActivated = true) :
    ActivateCollision cfg env p s = ([], some (SetActiveCollisionPart p s)) := by
  have h1 : (SetActiveCollisionPart p s).bIsCollisionActivated = true := by
    unfold SetActiveCollisionPart; split <;> simp [h]
  simp [ActivateCollision, h1]

theorem SetActiveCollisionPart_active (p : ECCCollisionPart) (s : State) :
    (SetActiveCollisionPart p s).bIsCollisionActivated = s.bIsCollisionActivated := by
  unfold SetActiveCollisionPart; split <;> rfl

theorem ActivateCollision_inactive_count (cfg : Settings) (env : Env) (p : ECCCollisionPart)
    (s : State) (h : s.bIsCollisionActivated = false) :
    activationStartedCount (ActivateCollision cfg env p s).1 = 1 := by
  have h1 : (SetActiveCollisionPart p s).bIsCollisionActivated = false := by
    rw [SetActiveCollisionPart_active]; exact h
  simp only [ActivateCollision, h1, OnRep_IsCollisionActivated]
  simp only [beq_self_eq_true, if_true]
  split
  · have := activationStartedCount_of_isHit _
      (TraceCheckLoop_isHit cfg env (ClearHitActors
        { SetActiveCollisionPart p s with bIsCollisionActivated := true }))
    simp only [activationStartedCount] at this ⊢
    simp [List.countP_cons, this, Event.isActivationStarted]
  · simp [activationStartedCount, Event.isActivationStarted]

theorem DeactivateCollision_count (cfg : Settings) (env : Env) (s : State) :
    activationStartedCount (DeactivateCollision cfg env s).1 = 0 := by
  unfold DeactivateCollision
  split
  · simp [OnRep_IsCollisionActivated, activationStartedCount, Event.isActivationStarted]
  · simp [activationStartedCount]

theorem step_activationStartedCount (cfg : Settings) (env : Env) (a : Action) (s : State) :
    activationStartedCount (step cfg env a s).1 =
      if a.isActivate && !s.bIsCollisionActivated then 1 else 0 := by
  cases a with
  | ActivateCollision p =>
    cases h : s.bIsCollisionActivated with
    | true => simp [step, ActivateCollision_active cfg env p s h, Action.isActivate,
        activationStartedCount]
    | false => simp [step, ActivateCollision_inactive_count cfg env p s h, Action.isActivate]
  | DeactivateCollision => simp [step, DeactivateCollision_count, Action.isActivate]
  | SetActiveCollisionPart p => simp [step, Action.isActivate, activationStartedCount]
  | UpdateCollidingComponent c l => simp [step, Action.isActivate, activationStartedCount]
  | UpdateCollidingComponents l => simp [step, Action.isActivate, activationStartedCount]
  | ClearHitActors => simp [step, Action.isActivate, activationStartedCount]
  | Tick =>
    simp [step, Action.isActivate,
      activationStartedCount_of_isHit _ (TraceCheckLoop_isHit cfg env s)]

theorem run_activationStartedCount (cfg : Settings) (acts : List (Env × Action)) :
    ∀ s, activationStartedCount (run cfg s acts).1 = inactiveActivations cfg s acts := by
  induction acts with
  | nil => intro s; simp [run, inactiveActivations, activationStartedCount]
  | cons ea rest ih =>
    intro s
    obtain ⟨env, a⟩ := ea
    have hstep := step_activationStartedCount cfg env a s
    unfold run inactiveActivations
    rcases hs : step cfg env a s with ⟨ev, _ | s1⟩
    · rw [hs] at hstep
      simpa using hstep
    · rw [hs] at hstep
      simp only [activationStartedCount_append, ih s1]
      simp only at hstep
      rw [hstep]

/-- C1: over every sequence of calls and cadence ticks from the initial Inactive
state, the number of activation-started events equals the number of
`ActivateCollision` calls made while Inactive; an `ActivateCollision` made while
Active emits no event at all. -/
theorem activation_started_events_match_transitions (cfg : Settings)
    (acts : List (Env × Action)) :
    activationStartedCount (run cfg State.initial acts).1
        = inactiveActivations cfg State.initial acts ∧
      ∀ (env : Env) (p : ECCCollisionPart) (s : State), s.bIsCollisionActivated = true →
        (ActivateCollision cfg env p s).1 = [] :=
  ⟨run_activationStartedCount cfg acts State.initial,
    fun env p s h => by rw [ActivateCollision_active cfg env p s h]⟩

/-! ## C2: one hit per surface and actor in an activation window -/

theorem hitCount_append (idx : Nat) (a : AActor) (l1 l2 : List Event) :
    hitCount idx a (l1 ++ l2) = hitCount idx a l1 + hitCount idx a l2 := by
  simp [hitCount, List.countP_append]

theorem hitCount_of_other_surface (idx i : Nat) (a : AActor) (log : List Event)
    (hne : i ≠ idx) (h : ∀ e ∈ log, ∃ hr c, e = Event.Hit i hr c) :
    hitCount idx a log = 0 := by
  unfold hitCount
  rw [List.countP_eq_zero]
  intro e he
  obtain ⟨hr, c, rfl⟩ := h e he
  simp [Event.isHitOf, hne]

theorem FreshFor_refl (a : AActor) (ha : List AActor) : FreshFor a ha 0 (some ha) := by
  refine ⟨by omega, fun _ => rfl, ?_⟩
  intro r hr
  cases hr
  exact ⟨id, by omega⟩

theorem FreshFor_trans (a : AActor) (ha ha1 : List AActor) (n1 n2 : Nat)
    (r : Option (List AActor)) (h1 : FreshFor a ha n1 (some ha1)) (h2 : FreshFor a ha1 n2 r) :
    FreshFor a ha (n1 + n2) r := by
  obtain ⟨h1a, h1b, h1c⟩ := h1
  obtain ⟨h2a, h2b, h2c⟩ := h2
  obtain ⟨h1d, h1e⟩ := h1c ha1 rfl
  have key : n1 = 1 → n2 = 0 := fun h => h2b (h1e h)
  refine ⟨?_, ?_, ?_⟩
  · by_cases h : n1 = 1
    · have := key h; omega
    · omega
  · intro hmem
    have := h1b hmem
    have := h2b (h1d hmem)
    omega
  · intro r1 hr1
    obtain ⟨h2d, h2e⟩ := h2c r1 hr1
    refine ⟨fun hmem => h2d (h1d hmem), ?_⟩
    intro hn
    by_cases h : n1 = 1
    · exact h2d (h1e h)
    · exact h2e (by omega)

theorem reportHits_fresh (cfg : Settings) (env : Env) (idx : Nat) (c : UPrimitiveComponent)
    (a : AActor) (hits : List FHitResult) :
    ∀ hitActors, FreshFor a hitActors
      (hitCount idx a (reportHits cfg env idx c hits hitActors).1)
      (some (reportHits cfg env idx c hits hitActors).2) := by
  induction hits with
  | nil => intro hitActors; simpa [reportHits, hitCount] using FreshFor_refl a hitActors
  | cons h rest ih =>
    intro hitActors
    unfold reportHits
    split
    · rename_i b hb
      split
      · rename_i hcond
        have hnot : b ∉ hitActors := by
          intro hmem
          simp [hmem] at hcond
        have ih1 := ih (hitActors ++ [b])
        have hfirst : FreshFor a hitActors (hitCount idx a [Event.Hit idx h c])
            (some (hitActors ++ [b])) := by
          by_cases hab : b = a
          · subst hab
            refine ⟨?_, ?_, ?_⟩
            · simp [hitCount, Event.isHitOf, hb]
            · intro hmem; exact absurd hmem hnot
            · intro r hr; cases hr; simp
          · have hz : hitCount idx a [Event.Hit idx h c] = 0 := by
              simp [hitCount, Event.isHitOf, hb, hab]
            rw [hz]
            refine ⟨by omega, fun _ => rfl, ?_⟩
            intro r hr; cases hr
            exact ⟨fun hmem => List.mem_append_left _ hmem, by omega⟩
        have := FreshFor_trans a _ _ _ _ _ hfirst ih1
        rw [← hitCount_append] at this
        exact this
      · exact ih hitActors
    · exact ih hitActors

theorem traceSockets_fresh (cfg : Settings) (env : Env) (cache : TMap) (idx : Nat)
    (c : UPrimitiveComponent) (a : AActor) (sockets : List FName) :
    ∀ hitActors, FreshFor a hitActors
      (hitCount idx a (traceSockets cfg env cache idx c sockets hitActors).1)
      (traceSockets cfg env cache idx c sockets hitActors).2 := by
  induction sockets with
  | nil => intro hitActors; simpa [traceSockets, hitCount] using FreshFor_refl a hitActors
  | cons sock rest ih =>
    intro hitActors
    unfold traceSockets
    split
    · refine ⟨by simp [hitCount], fun _ => by simp [hitCount], ?_⟩
      intro r hr; simp at hr
    · rename_i startTrace hfind
      simp only
      split
      · have h1 := reportHits_fresh cfg env idx c a
          (env.SphereTraceMultiForObjects startTrace
            (FCCCollidingComponent.GetSocketLocation env c sock)
            (hitActors.map some ++ [env.GetOwner] ++ cfg.IgnoredActors)).2 hitActors
        have := FreshFor_trans a _ _ _ _ _ h1 (ih _)
        simpa [hitCount_append] using this
      · have := FreshFor_trans a _ _ _ _ _ (FreshFor_refl a hitActors) (ih hitActors)
        simpa [hitCount_append, hitCount] using this

theorem hitActorsAt_cons_zero (x : FCCCollidingComponent) (l : List FCCCollidingComponent) :
    hitActorsAt (x :: l) 0 = x.HitActors := by
  simp [hitActorsAt]

theorem hitActorsAt_cons_succ (x : FCCCollidingComponent) (l : List FCCCollidingComponent)
    (j : Nat) : hitActorsAt (x :: l) (j + 1) = hitActorsAt l j := by
  simp [hitActorsAt]

theorem traceSurface_fresh (cfg : Settings) (env : Env) (cache : TMap) (idx : Nat)
    (a : AActor) (surf : FCCCollidingComponent) :
    FreshFor a surf.HitActors (hitCount idx a (traceSurface cfg env cache idx surf).1)
      (traceSurface cfg env cache idx surf).2 := by
  unfold traceSurface
  split
  · split
    · exact traceSockets_fresh cfg env cache idx _ a _ _
    · simpa [hitCount] using FreshFor_refl a surf.HitActors
  · simpa [hitCount] using FreshFor_refl a surf.HitActors

theorem traceComponents_hitCount_below (cfg : Settings) (env : Env) (cache : TMap)
    (l : List FCCCollidingComponent) (k idx : Nat) (a : AActor) (h : idx < k) :
    hitCount idx a (traceComponents cfg env cache k l).1 = 0 := by
  unfold hitCount
  rw [List.countP_eq_zero]
  intro e he
  obtain ⟨i, hr, c, hle, rfl⟩ := traceComponents_events cfg env cache l k e he
  have : i ≠ idx := by omega
  simp [Event.isHitOf, this]

theorem traceComponents_fresh (cfg : Settings) (env : Env) (cache : TMap) (a : AActor)
    (l : List FCCCollidingComponent) :
    ∀ k j, FreshFor a (hitActorsAt l j)
      (hitCount (k + j) a (traceComponents cfg env cache k l).1)
      ((traceComponents cfg env cache k l).2.map fun r => hitActorsAt r j) := by
  induction l with
  | nil =>
    intro k j
    simpa [traceComponents, hitCount] using FreshFor_refl a (hitActorsAt [] j)
  | cons surf rest ih =>
    intro k j
    have hhere := traceSurface_fresh cfg env cache k a surf
    have hev := traceSurface_events cfg env cache k surf
    unfold traceComponents
    rcases hs : traceSurface cfg env cache k surf with ⟨ev, _ | ha⟩
    · rw [hs] at hhere hev
      simp only [Option.map_none']
      cases j with
      | zero =>
        rw [hitActorsAt_cons_zero]
        exact ⟨hhere.1, hhere.2.1, fun r hr => by simp at hr⟩
      | succ j1 =>
        have hz : hitCount (k + (j1 + 1)) a ev = 0 :=
          hitCount_of_other_surface _ k a ev (by omega) hev
        simp only at hz ⊢
        rw [hz]
        exact ⟨by omega, fun _ => rfl, fun r hr => by simp at hr⟩
    · rw [hs] at hhere hev
      simp only [hitCount_append]
      cases j with
      | zero =>
        have hz : hitCount (k + 0) a (traceComponents cfg env cache (k + 1) rest).1 = 0 :=
          traceComponents_hitCount_below cfg env cache rest (k + 1) (k + 0) a (by omega)
        rw [hz, hitActorsAt_cons_zero]
        simp only [Nat.add_zero] at hhere ⊢
        refine ⟨hhere.1, hhere.2.1, ?_⟩
        intro r hr
        cases h2 : (traceComponents cfg env cache (k + 1) rest).2 with
        | none => simp [h2] at hr
        | some l1 =>
          simp [h2, hitActorsAt_cons_zero] at hr
          subst hr
          exact hhere.2.2 ha rfl
      | succ j1 =>
        have hz : hitCount (k + (j1 + 1)) a ev = 0 :=
          hitCount_of_other_surface _ k a ev (by omega) hev
        have hih := ih (k + 1) j1
        have hidx : k + (j1 + 1) = k + 1 + j1 := by omega
        rw [hz, hitActorsAt_cons_succ, hidx, Nat.zero_add]
        have hmap : (Option.map (fun r => hitActorsAt r (j1 + 1))
            (Option.map (fun l => { surf with HitActors := ha } :: l)
              (traceComponents cfg env cache (k + 1) rest).2))
            = Option.map (fun r => hitActorsAt r j1)
              (traceComponents cfg env cache (k + 1) rest).2 := by
          cases (traceComponents cfg env cache (k + 1) rest).2 <;>
            simp [hitActorsAt_cons_succ]
        simp only at hmap ⊢
        rw [hmap]
        exact hih

theorem PerformTraceCheck_fresh (cfg : Settings) (env : Env) (s : State) (idx : Nat)
    (a : AActor) :
    FreshFor a (hitActorsAt s.ActiveCollidingComponents idx)
      (hitCount idx a (PerformTraceCheck cfg env s).1)
      ((PerformTraceCheck cfg env s).2.map fun s1 =>
        hitActorsAt s1.ActiveCollidingComponents idx) := by
  have h := traceComponents_fresh cfg env s.LastFrameSocketLocations a
    s.ActiveCollidingComponents 0 idx
  rw [Nat.zero_add] at h
  unfold PerformTraceCheck
  simp only [Option.map_map]
  exact h

theorem PerformTraceCheck_flags (cfg : Settings) (env : Env) (s s1 : State)
    (h : (PerformTraceCheck cfg env s).2 = some s1) :
    s1.bIsCollisionActivated = s.bIsCollisionActivated ∧
      s1.bCanPerformTrace = s.bCanPerformTrace ∧
      s1.ActivatedCollisionPart = s.ActivatedCollisionPart ∧
      s1.LastFrameSocketLocations = s.LastFrameSocketLocations ∧
      s1.TimerHandle_TraceCheck = s.TimerHandle_TraceCheck := by
  unfold PerformTraceCheck at h
  simp only [Option.map_eq_some'] at h
  obtain ⟨l, _, rfl⟩ := h
  exact ⟨rfl, rfl, rfl, rfl, rfl⟩

theorem TraceCheckLoop_fresh (cfg : Settings) (env : Env) (s : State) (idx : Nat) (a : AActor) :
    FreshFor a (hitActorsAt s.ActiveCollidingComponents idx)
      (hitCount idx a (TraceCheckLoop cfg env s).1)
      ((TraceCheckLoop cfg env s).2.map fun s1 =>
        hitActorsAt s1.ActiveCollidingComponents idx) := by
  unfold TraceCheckLoop
  simp only [Option.map_map]
  split
  · have h := PerformTraceCheck_fresh cfg env s idx a
    have hm : Option.map ((fun s1 : State => hitActorsAt s1.ActiveCollidingComponents idx) ∘
        fun s1 => { UpdateSocketLocations env s1 with bCanPerformTrace := true })
        (PerformTraceCheck cfg env s).2 =
        Option.map (fun s1 => hitActorsAt s1.ActiveCollidingComponents idx)
          (PerformTraceCheck cfg env s).2 := by
      cases (PerformTraceCheck cfg env s).2 <;> simp [UpdateSocketLocations]
    rw [hm]
    exact h
  · simpa [hitCount, UpdateSocketLocations] using
      FreshFor_refl a (hitActorsAt s.ActiveCollidingComponents idx)

theorem TraceCheckLoop_active (cfg : Settings) (env : Env) (s s1 : State)
    (h : (TraceCheckLoop cfg env s).2 = some s1) :
    s1.bIsCollisionActivated = s.bIsCollisionActivated := by
  unfold TraceCheckLoop at h
  simp only [Option.map_eq_some'] at h
  obtain ⟨s2, h2, rfl⟩ := h
  split at h2
  · exact (PerformTraceCheck_flags cfg env s s2 h2).1
  · cases h2; rfl

theorem SetActiveCollisionPart_registry (p : ECCCollisionPart) (s : State) :
    (SetActiveCollisionPart p s).ActiveCollidingComponents = s.ActiveCollidingComponents := by
  unfold SetActiveCollisionPart; split <;> rfl

theorem step_inWindow_fresh (cfg : Settings) (env : Env) (act : Action) (s : State)
    (idx : Nat) (a : AActor) (hact : s.bIsCollisionActivated = true)
    (hw : act.inWindow = true) :
    FreshFor a (hitActorsAt s.ActiveCollidingComponents idx)
        (hitCount idx a (step cfg env act s).1)
        ((step cfg env act s).2.map fun s1 => hitActorsAt s1.ActiveCollidingComponents idx) ∧
      ∀ s1, (step cfg env act s).2 = some s1 → s1.bIsCollisionActivated = true := by
  cases act with
  | ActivateCollision p =>
    simp only [step, ActivateCollision_active cfg env p s hact, Option.map_some',
      SetActiveCollisionPart_registry]
    refine ⟨by simpa [hitCount] using FreshFor_refl a _, ?_⟩
    intro s1 h1
    simp only [Option.some.injEq] at h1
    rw [← h1, SetActiveCollisionPart_active, hact]
  | SetActiveCollisionPart p =>
    simp only [step, Option.map_some', SetActiveCollisionPart_registry]
    refine ⟨by simpa [hitCount] using FreshFor_refl a _, ?_⟩
    intro s1 h1
    simp only [Option.some.injEq] at h1
    rw [← h1, SetActiveCollisionPart_active, hact]
  | Tick =>
    refine ⟨TraceCheckLoop_fresh cfg env s idx a, ?_⟩
    intro s1 h1
    rw [TraceCheckLoop_active cfg env s s1 h1, hact]
  | DeactivateCollision => simp [Action.inWindow] at hw
  | UpdateCollidingComponent c l => simp [Action.inWindow] at hw
  | UpdateCollidingComponents l => simp [Action.inWindow] at hw
  | ClearHitActors => simp [Action.inWindow] at hw

theorem run_inWindow_fresh (cfg : Settings) (idx : Nat) (a : AActor)
    (window : List (Env × Action)) (hw : ∀ ea ∈ window, ea.2.inWindow = true) :
    ∀ s, s.bIsCollisionActivated = true →
      FreshFor a (hitActorsAt s.ActiveCollidingComponents idx)
        (hitCount idx a (run cfg s window).1)
        ((run cfg s window).2.map fun s1 => hitActorsAt s1.ActiveCollidingComponents idx) := by
  induction window with
  | nil =>
    intro s _
    simpa [run, hitCount] using FreshFor_refl a _
  | cons ea rest ih =>
    intro s hact
    obtain ⟨env, act⟩ := ea
    have hstep := step_inWindow_fresh cfg env act s idx a hact
      (hw (env, act) (List.mem_cons_self _ _))
    have hrest : ∀ ea ∈ rest, ea.2.inWindow = true :=
      fun ea h => hw ea (List.mem_cons_of_mem _ h)
    unfold run
    rcases hs : step cfg env act s with ⟨ev, _ | s1⟩
    · rw [hs] at hstep
      exact hstep.1
    · rw [hs] at hstep
      have h2 := ih hrest s1 (hstep.2 s1 rfl)
      have := FreshFor_trans a _ _ _ _ _ hstep.1 h2
      simpa [hitCount_append] using this

theorem hitActorsAt_ClearHitActors (s : State) (idx : Nat) :
    hitActorsAt (ClearHitActors s).ActiveCollidingComponents idx = [] := by
  unfold ClearHitActors hitActorsAt
  simp only [List.getElem?_map]
  cases s.ActiveCollidingComponents[idx]? <;> rfl

theorem ActivateCollision_inactive_fresh (cfg : Settings) (env : Env) (p : ECCCollisionPart)
    (s : State) (idx : Nat) (a : AActor) (h : s.bIsCollisionActivated = false) :
    FreshFor a []
        (hitCount idx a (ActivateCollision cfg env p s).1)
        ((ActivateCollision cfg env p s).2.map fun s1 =>
          hitActorsAt s1.ActiveCollidingComponents idx) ∧
      ∀ s1, (ActivateCollision cfg env p s).2 = some s1 → s1.bIsCollisionActivated = true := by
  have h1 : (SetActiveCollisionPart p s).bIsCollisionActivated = false := by
    rw [SetActiveCollisionPart_active]; exact h
  simp only [ActivateCollision, h1, OnRep_IsCollisionActivated]
  simp only [beq_self_eq_true, if_true]
  split
  · have hf := TraceCheckLoop_fresh cfg env
      (ClearHitActors { SetActiveCollisionPart p s with bIsCollisionActivated := true }) idx a
    rw [hitActorsAt_ClearHitActors] at hf
    have hact := TraceCheckLoop_active cfg env
      (ClearHitActors { SetActiveCollisionPart p s with bIsCollisionActivated := true })
    constructor
    · have hc : ∀ l : List Event, hitCount idx a (Event.CollisionActivated
          (ClearHitActors { SetActiveCollisionPart p s with
            bIsCollisionActivated := true }).ActivatedCollisionPart :: l) = hitCount idx a l := by
        intro l; simp [hitCount, Event.isHitOf]
      simp only [hc, Option.map_map]
      have hm : ∀ o : Option State,
          Option.map ((fun s1 : State => hitActorsAt s1.ActiveCollidingComponents idx) ∘
            fun s2 => { s2 with TimerHandle_TraceCheck := true }) o =
          Option.map (fun s1 => hitActorsAt s1.ActiveCollidingComponents idx) o := by
        intro o; cases o <;> rfl
      rw [hm]
      exact hf
    · intro s1 hs1
      simp only [Option.map_eq_some'] at hs1
      obtain ⟨s2, hs2, rfl⟩ := hs1
      simp only
      rw [hact s2 hs2]
      rfl
  · constructor
    · simp only [Option.map_some', hitActorsAt_ClearHitActors]
      simpa [hitCount, Event.isHitOf] using FreshFor_refl a []
    · intro s1 hs1
      simp only [Option.some.injEq] at hs1
      rw [← hs1]
      rfl

/-- C2: in one activation window (an `ActivateCollision` made while Inactive,
followed by any cadence ticks and tag changes, each in an arbitrary world and
with an arbitrary trace backend), at most one hit event is emitted for each
surface and actor; and `PerformTraceCheck` emits no hit for an actor that is
already in the surface's `HitActors`. -/
theorem one_hit_per_surface_and_actor_in_window (cfg : Settings) (env0 : Env)
    (p : ECCCollisionPart) (s0 : State) (window : List (Env × Action)) (idx : Nat) (a : AActor)
    (h0 : s0.bIsCollisionActivated = false)
    (hw : ∀ ea ∈ window, ea.2.inWindow = true) :
    hitCount idx a (run cfg s0 ((env0, Action.ActivateCollision p) :: window)).1 ≤ 1 ∧
      ∀ (env : Env) (s : State), a ∈ hitActorsAt s.ActiveCollidingComponents idx →
        hitCount idx a (PerformTraceCheck cfg env s).1 = 0 := by
  constructor
  · have hA := ActivateCollision_inactive_fresh cfg env0 p s0 idx a h0
    unfold run
    simp only [step]
    rcases hs : ActivateCollision cfg env0 p s0 with ⟨ev, _ | s1⟩
    · rw [hs] at hA
      exact hA.1.1
    · rw [hs] at hA
      have h2 := run_inWindow_fresh cfg idx a window hw s1 (hA.2 s1 rfl)
      have := FreshFor_trans a _ _ _ _ _ hA.1 h2
      simpa [hitCount_append] using this.1
  · intro env s hmem
    exact (PerformTraceCheck_fresh cfg env s idx a).2.1 hmem

/-! ## C3: the first loop of a window samples, the later ones trace then sample -/

theorem TraceCheckLoop_first (cfg : Settings) (env : Env) (s : State)
    (h : s.bCanPerformTrace = false) :
    TraceCheckLoop cfg env s =
      ([], some { UpdateSocketLocations env s with bCanPerformTrace := true }) := by
  simp [TraceCheckLoop, h]

theorem TraceCheckLoop_later (cfg : Settings) (env : Env) (s : State)
    (h : s.bCanPerformTrace = true) :
    TraceCheckLoop cfg env s =
      ((PerformTraceCheck cfg env s).1,
        (PerformTraceCheck cfg env s).2.map fun s1 =>
          { UpdateSocketLocations env s1 with bCanPerformTrace := true }) := by
  simp [TraceCheckLoop, h]

theorem TraceCheckLoop_canPerformTrace (cfg : Settings) (env : Env) (s s1 : State)
    (h : (TraceCheckLoop cfg env s).2 = some s1) : s1.bCanPerformTrace = true := by
  unfold TraceCheckLoop at h
  simp only [Option.map_eq_some'] at h
  obtain ⟨s2, _, rfl⟩ := h
  rfl

theorem SetActiveCollisionPart_canPerformTrace (p : ECCCollisionPart) (s : State) :
    (SetActiveCollisionPart p s).bCanPerformTrace = s.bCanPerformTrace := by
  unfold SetActiveCollisionPart; split <;> rfl

theorem ActivateCollision_inactive_world (cfg : Settings) (env : Env) (p : ECCCollisionPart)
    (s : State) (hi : s.bIsCollisionActivated = false) (hc : s.bCanPerformTrace = false)
    (hw : env.GetWorld = true) :
    ActivateCollision cfg env p s =
      ([Event.CollisionActivated p], some (openedWindow env p s)) := by
  have h1 : (SetActiveCollisionPart p s).bIsCollisionActivated = false := by
    rw [SetActiveCollisionPart_active]; exact hi
  have h2 : (ClearHitActors { SetActiveCollisionPart p s with
      bIsCollisionActivated := true }).bCanPerformTrace = false := by
    show (SetActiveCollisionPart p s).bCanPerformTrace = false
    rw [SetActiveCollisionPart_canPerformTrace]; exact hc
  have h3 : (SetActiveCollisionPart p s).ActivatedCollisionPart = p := by
    unfold SetActiveCollisionPart
    split
    · rfl
    · rename_i hne
      simpa using hne
  simp only [ActivateCollision, h1, OnRep_IsCollisionActivated, hw,
    TraceCheckLoop_first cfg env _ h2]
  simp [openedWindow, ClearHitActors, h3]

theorem ActivateCollision_inactive_no_world (cfg : Settings) (env : Env) (p : ECCCollisionPart)
    (s : State) (hi : s.bIsCollisionActivated = false) (hw : env.GetWorld = false) :
    ActivateCollision cfg env p s =
      ([Event.CollisionActivated p],
        some (ClearHitActors { SetActiveCollisionPart p s with bIsCollisionActivated := true })) := by
  have h1 : (SetActiveCollisionPart p s).bIsCollisionActivated = false := by
    rw [SetActiveCollisionPart_active]; exact hi
  have h3 : (SetActiveCollisionPart p s).ActivatedCollisionPart = p := by
    unfold SetActiveCollisionPart
    split
    · rfl
    · rename_i hne
      simpa using hne
  simp only [ActivateCollision, h1, OnRep_IsCollisionActivated, hw]
  simp [ClearHitActors, h3]

theorem step_canPerformTrace (cfg : Settings) (env : Env) (a : Action) (s s1 : State) (n : Nat)
    (hinv : s.bCanPerformTrace = true ↔ s.bIsCollisionActivated = true ∧ 0 < n)
    (htick : (!a.isTick || s.bIsCollisionActivated) = true)
    (hs : (step cfg env a s).2 = some s1) :
    s1.bCanPerformTrace = true ↔ s1.bIsCollisionActivated = true ∧
      0 < (match a with
        | .ActivateCollision _ =>
          if s.bIsCollisionActivated then n else if env.GetWorld then 1 else 0
        | .Tick => n + 1
        | _ => n) := by
  cases a with
  | ActivateCollision p =>
    cases hact : s.bIsCollisionActivated with
    | true =>
      simp only [step, ActivateCollision_active cfg env p s hact, Option.some.injEq] at hs
      subst hs
      simp only [SetActiveCollisionPart_canPerformTrace, SetActiveCollisionPart_active, hact,
        if_true]
      simpa [hact] using hinv
    | false =>
      have hc : s.bCanPerformTrace = false := by
        cases hcp : s.bCanPerformTrace with
        | false => rfl
        | true => have := (hinv.mp hcp).1; simp [hact] at this
      cases hw : env.GetWorld with
      | true =>
        simp only [step, ActivateCollision_inactive_world cfg env p s hact hc hw,
          Option.some.injEq] at hs
        subst hs
        simp [openedWindow, UpdateSocketLocations, ClearHitActors]
      | false =>
        simp only [step, ActivateCollision_inactive_no_world cfg env p s hact hw,
          Option.some.injEq] at hs
        subst hs
        simp [ClearHitActors, SetActiveCollisionPart_canPerformTrace, hc]
  | DeactivateCollision =>
    simp only [step, DeactivateCollision] at hs
    split at hs
    · simp only [OnRep_IsCollisionActivated] at hs
      simp only [Bool.false_eq_true, if_false, Option.some.injEq] at hs
      subst hs
      split <;> simp
    · simp only [Option.some.injEq] at hs
      subst hs
      exact hinv
  | SetActiveCollisionPart p =>
    simp only [step, Option.some.injEq] at hs
    subst hs
    simpa [SetActiveCollisionPart_canPerformTrace, SetActiveCollisionPart_active] using hinv
  | UpdateCollidingComponent c l =>
    simp only [step, Option.some.injEq] at hs
    subst hs
    exact hinv
  | UpdateCollidingComponents l =>
    simp only [step, Option.some.injEq] at hs
    subst hs
    exact hinv
  | ClearHitActors =>
    simp only [step, Option.some.injEq] at hs
    subst hs
    exact hinv
  | Tick =>
    simp only [Action.isTick, Bool.not_true, Bool.false_or] at htick
    simp only [step] at hs
    have h1 := TraceCheckLoop_canPerformTrace cfg env s s1 hs
    have h2 := TraceCheckLoop_active cfg env s s1 hs
    simp [h1, h2, htick]

theorem run_canPerformTrace (cfg : Settings) (acts : List (Env × Action)) :
    ∀ (s : State) (n : Nat) (s1 : State),
      (s.bCanPerformTrace = true ↔ s.bIsCollisionActivated = true ∧ 0 < n) →
      ticksOnlyWhileActive cfg s acts = true →
      (run cfg s acts).2 = some s1 →
      (s1.bCanPerformTrace = true ↔
        s1.bIsCollisionActivated = true ∧ 0 < windowLoops cfg s n acts) := by
  induction acts with
  | nil =>
    intro s n s1 hinv _ hs
    simp only [run, Option.some.injEq] at hs
    subst hs
    simpa [windowLoops] using hinv
  | cons ea rest ih =>
    intro s n s1 hinv ht hs
    obtain ⟨env, a⟩ := ea
    unfold ticksOnlyWhileActive at ht
    unfold run at hs
    unfold windowLoops
    rcases hst : step cfg env a s with ⟨ev, _ | s2⟩
    · rw [hst] at hs
      simp at hs
    · rw [hst] at hs ht
      simp only [Bool.and_eq_true] at ht
      have hstep := step_canPerformTrace cfg env a s s2 n hinv ht.1 (by rw [hst])
      exact ih s2 _ s1 hstep ht.2 hs

/-- C3 (as amended): in every state reached from the initial state by calls and
cadence ticks, the ticks occurring only while Active, `bCanPerformTrace` is
false while Inactive; an `ActivateCollision` made while Inactive by a component
that has a world emits the activation event and resamples once without tracing
(without a world it only clears the hit records); in an open window the first
`TraceCheckLoop` only resamples and emits nothing, and every later one runs
`PerformTraceCheck` and then `UpdateSocketLocations`. -/
theorem first_loop_samples_later_loops_trace (cfg : Settings) (acts : List (Env × Action))
    (s : State) (ht : ticksOnlyWhileActive cfg State.initial acts = true)
    (hs : (run cfg State.initial acts).2 = some s) :
    (s.bIsCollisionActivated = false → s.bCanPerformTrace = false) ∧
    (∀ (env : Env) (p : ECCCollisionPart),
      s.bIsCollisionActivated = false → env.GetWorld = true →
        ActivateCollision cfg env p s =
          ([Event.CollisionActivated p], some (openedWindow env p s))) ∧
    (∀ (env : Env) (p : ECCCollisionPart),
      s.bIsCollisionActivated = false → env.GetWorld = false →
        ActivateCollision cfg env p s =
          ([Event.CollisionActivated p],
            some (ClearHitActors
              { SetActiveCollisionPart p s with bIsCollisionActivated := true }))) ∧
    (∀ env : Env,
      s.bIsCollisionActivated = true → windowLoops cfg State.initial 0 acts = 0 →
        TraceCheckLoop cfg env s =
          ([], some { UpdateSocketLocations env s with bCanPerformTrace := true })) ∧
    (∀ env : Env,
      s.bIsCollisionActivated = true → 0 < windowLoops cfg State.initial 0 acts →
        TraceCheckLoop cfg env s =
          ((PerformTraceCheck cfg env s).1,
            (PerformTraceCheck cfg env s).2.map fun s1 =>
              { UpdateSocketLocations env s1 with bCanPerformTrace := true })) := by
  have hinv := run_canPerformTrace cfg acts State.initial 0 s (by simp [State.initial]) ht hs
  have hinactive : s.bIsCollisionActivated = false → s.bCanPerformTrace = false := by
    intro hi
    cases hc : s.bCanPerformTrace with
    | false => rfl
    | true => have := (hinv.mp hc).1; simp [hi] at this
  refine ⟨hinactive, ?_, ?_, ?_, ?_⟩
  · intro env p hi hw
    exact ActivateCollision_inactive_world cfg env p s hi (hinactive hi) hw
  · intro env p hi hw
    exact ActivateCollision_inactive_no_world cfg env p s hi hw
  · intro env ha hz
    apply TraceCheckLoop_first
    cases hc : s.bCanPerformTrace with
    | false => rfl
    | true => have := (hinv.mp hc).2; omega
  · intro env ha hpos
    exact TraceCheckLoop_later cfg env s (hinv.mpr ⟨ha, hpos⟩)

theorem first_loop_samples_later_loops_trace_witness :
    ActivateCollision demoSettings demoWorld ECCCollisionPart.SecondaryItem demoSessionEnd =
      ([Event.CollisionActivated ECCCollisionPart.SecondaryItem],
        some (openedWindow demoWorld ECCCollisionPart.SecondaryItem demoSessionEnd)) :=
  (first_loop_samples_later_loops_trace demoSettings demoSession demoSessionEnd
    (by decide) (by decide)).2.1 demoWorld ECCCollisionPart.SecondaryItem (by decide) (by decide)

/-- C3, counterexample to the claim as stated: an `ActivateCollision` made while
Inactive by a component without a world does not resample (the cache keeps the
old position although the sword moved). -/
theorem activation_without_world_does_not_resample :
    ActivateCollision demoSettings demoNoWorld ECCCollisionPart.PrimaryItem
        (UpdateCollidingComponent demoWorld (some 0) [] State.initial) ≠
      ([Event.CollisionActivated ECCCollisionPart.PrimaryItem],
        some (openedWindow demoNoWorld ECCCollisionPart.PrimaryItem
          (UpdateCollidingComponent demoWorld (some 0) [] State.initial))) ∧
    (ActivateCollision demoSettings demoNoWorld ECCCollisionPart.PrimaryItem
        (UpdateCollidingComponent demoWorld (some 0) [] State.initial)).2.map
        (fun s => s.LastFrameSocketLocations) = some [("SwordNone", ⟨0, 0, 0⟩)] ∧
    (openedWindow demoNoWorld ECCCollisionPart.PrimaryItem
        (UpdateCollidingComponent demoWorld (some 0) [] State.initial)).LastFrameSocketLocations
      = [("SwordNone", ⟨5, 5, 5⟩)] := by
  decide

/-! ## C4: a position is sampled before it is used as a trace start -/

theorem TMap.Find_Add_self (m : TMap) (k : FName) (v : FVector) :
    TMap.Find (TMap.Add m k v) k = some v := by
  induction m with
  | nil => simp [TMap.Add, TMap.Find]
  | cons kv rest ih =>
    obtain ⟨k1, v1⟩ := kv
    unfold TMap.Add
    split
    · simp [TMap.Find]
    · rename_i hne
      simp [TMap.Find, hne, ih]

theorem TMap.Find_Add_isSome (m : TMap) (k k1 : FName) (v : FVector)
    (h : (TMap.Find m k1).isSome = true) : (TMap.Find (TMap.Add m k v) k1).isSome = true := by
  induction m with
  | nil => simp [TMap.Find] at h
  | cons kv rest ih =>
    obtain ⟨k2, v2⟩ := kv
    unfold TMap.Add
    split
    · rename_i heq
      subst heq
      unfold TMap.Find at h ⊢
      split
      · rfl
      · rename_i hne
        simpa [hne] using h
    · unfold TMap.Find at h ⊢
      split
      · rfl
      · rename_i hne
        simp only [hne, if_false] at h
        exact ih h

theorem sampleSockets_keeps (env : Env) (c : UPrimitiveComponent) (socks : List FName) :
    ∀ (m : TMap) (k : FName), (TMap.Find m k).isSome = true →
      (TMap.Find (sampleSockets env c socks m) k).isSome = true := by
  induction socks with
  | nil => intro m k h; exact h
  | cons sock rest ih =>
    intro m k h
    unfold sampleSockets
    exact ih _ k (TMap.Find_Add_isSome m _ k _ h)

theorem sampleSockets_covers (env : Env) (c : UPrimitiveComponent) (socks : List FName) :
    ∀ (m : TMap), ∀ sock ∈ socks,
      (TMap.Find (sampleSockets env c socks m) (GenerateUniqueSocketName env c sock)).isSome
        = true := by
  induction socks with
  | nil => intro m sock h; simp at h
  | cons s0 rest ih =>
    intro m sock h
    unfold sampleSockets
    rcases List.mem_cons.mp h with rfl | h
    · apply sampleSockets_keeps
      rw [TMap.Find_Add_self]
      rfl
    · exact ih _ sock h

theorem sampleComponents_keeps (env : Env) (l : List FCCCollidingComponent) :
    ∀ (m : TMap) (k : FName), (TMap.Find m k).isSome = true →
      (TMap.Find (sampleComponents env l m) k).isSome = true := by
  induction l with
  | nil => intro m k h; exact h
  | cons surf rest ih =>
    intro m k h
    unfold sampleComponents
    split
    · split
      · exact ih _ k (sampleSockets_keeps env _ _ m k h)
      · exact ih m k h
    · exact ih m k h

theorem sampleComponents_covers (env : Env) (l : List FCCCollidingComponent) :
    ∀ (m : TMap), ∀ surf ∈ l, ∀ c, surf.Component = some c → env.IsValid c = true →
      ∀ sock ∈ surf.Sockets,
        (TMap.Find (sampleComponents env l m) (GenerateUniqueSocketName env c sock)).isSome
          = true := by
  induction l with
  | nil => intro m surf h; simp at h
  | cons s0 rest ih =>
    intro m surf h c hc hv sock hsock
    unfold sampleComponents
    rcases List.mem_cons.mp h with rfl | h
    · simp only [hc, hv, if_true]
      exact sampleComponents_keeps env rest _ _ (sampleSockets_covers env c _ m sock hsock)
    · split
      · split
        · exact ih _ surf h c hc hv sock hsock
        · exact ih _ surf h c hc hv sock hsock
      · exact ih _ surf h c hc hv sock hsock

theorem UpdateSocketLocations_covers (env : Env) (s : State) :
    CacheCovers env (UpdateSocketLocations env s) := by
  intro surf hsurf c hc hv sock hsock
  exact sampleComponents_covers env s.ActiveCollidingComponents s.LastFrameSocketLocations
    surf hsurf c hc hv sock hsock

theorem traceSockets_no_fault (cfg : Settings) (env : Env) (cache : TMap) (idx : Nat)
    (c : UPrimitiveComponent) (socks : List FName) :
    ∀ hitActors,
      (∀ sock ∈ socks, (TMap.Find cache (GenerateUniqueSocketName env c sock)).isSome = true) →
      ((traceSockets cfg env cache idx c socks hitActors).2).isSome = true := by
  induction socks with
  | nil => intro hitActors _; rfl
  | cons sock rest ih =>
    intro hitActors h
    unfold traceSockets
    have h0 := h sock (List.mem_cons_self _ _)
    split
    · rename_i hnone
      rw [hnone] at h0
      simp at h0
    · exact ih _ (fun s hs => h s (List.mem_cons_of_mem _ hs))

theorem traceComponents_no_fault (cfg : Settings) (env : Env) (cache : TMap)
    (l : List FCCCollidingComponent) :
    ∀ idx,
      (∀ surf ∈ l, ∀ c, surf.Component = some c → env.IsValid c = true →
        ∀ sock ∈ surf.Sockets,
          (TMap.Find cache (GenerateUniqueSocketName env c sock)).isSome = true) →
      ((traceComponents cfg env cache idx l).2).isSome = true := by
  induction l with
  | nil => intro idx _; rfl
  | cons surf rest ih =>
    intro idx h
    have hhere : ((traceSurface cfg env cache idx surf).2).isSome = true := by
      unfold traceSurface
      split
      · rename_i c hc
        split
        · rename_i hv
          exact traceSockets_no_fault cfg env cache idx c _ _
            (h surf (List.mem_cons_self _ _) c hc hv)
        · rfl
      · rfl
    have hrest := ih (idx + 1) (fun s hs => h s (List.mem_cons_of_mem _ hs))
    unfold traceComponents
    rcases hs : traceSurface cfg env cache idx surf with ⟨ev, _ | ha⟩
    · rw [hs] at hhere
      simp at hhere
    · simp only [Option.isSome_map']
      exact hrest

theorem PerformTraceCheck_no_fault (cfg : Settings) (env : Env) (s : State)
    (h : CacheCovers env s) : ((PerformTraceCheck cfg env s).2).isSome = true := by
  unfold PerformTraceCheck
  simp only [Option.isSome_map']
  exact traceComponents_no_fault cfg env _ _ 0 h

theorem CacheCovers_congr (env : Env) (s s1 : State)
    (hr : s1.ActiveCollidingComponents = s.ActiveCollidingComponents)
    (hc : s1.LastFrameSocketLocations = s.LastFrameSocketLocations)
    (h : CacheCovers env s) : CacheCovers env s1 := by
  unfold CacheCovers at h ⊢
  rw [hr, hc]
  exact h

theorem CacheCovers_transfer (prev env : Env) (s : State) (h : CacheCovers prev s)
    (hv : ValidSince prev env s.ActiveCollidingComponents) : CacheCovers env s := by
  intro surf hsurf c hc hvalid sock hsock
  obtain ⟨hpv, hname⟩ := hv surf hsurf c hc hvalid
  have := h surf hsurf c hc hpv sock hsock
  simpa [GenerateUniqueSocketName, hname] using this

theorem CacheCovers_clearHitActors (env : Env) (s : State) (h : CacheCovers env s) :
    CacheCovers env (ClearHitActors s) := by
  intro surf hsurf c hc hvalid sock hsock
  simp only [ClearHitActors, List.mem_map] at hsurf
  obtain ⟨surf0, hmem, rfl⟩ := hsurf
  exact h surf0 hmem c hc hvalid sock hsock

theorem TraceCheckLoop_covers (cfg : Settings) (env : Env) (s : State)
    (h : s.bCanPerformTrace = true → CacheCovers env s) :
    ∃ s1, (TraceCheckLoop cfg env s).2 = some s1 ∧ CacheCovers env s1 := by
  unfold TraceCheckLoop
  split
  · rename_i hb
    have hnf := PerformTraceCheck_no_fault cfg env s (h hb)
    rcases hp : (PerformTraceCheck cfg env s).2 with _ | s2
    · rw [hp] at hnf
      simp at hnf
    · refine ⟨{ UpdateSocketLocations env s2 with bCanPerformTrace := true }, by simp [hp], ?_⟩
      exact CacheCovers_congr env (UpdateSocketLocations env s2) _ rfl rfl
        (UpdateSocketLocations_covers env s2)
  · refine ⟨{ UpdateSocketLocations env s with bCanPerformTrace := true }, by simp, ?_⟩
    exact CacheCovers_congr env (UpdateSocketLocations env s) _ rfl rfl
      (UpdateSocketLocations_covers env s)

theorem SetActiveCollisionPart_cache (p : ECCCollisionPart) (s : State) :
    (SetActiveCollisionPart p s).LastFrameSocketLocations = s.LastFrameSocketLocations := by
  unfold SetActiveCollisionPart; split <;> rfl

theorem SampledAt_covers (last : Option Env) (env : Env) (s : State) (h : SampledAt last s)
    (hv : ∀ prev, last = some prev → ValidSince prev env s.ActiveCollidingComponents) :
    CacheCovers env s := by
  cases last with
  | none =>
    simp only [SampledAt] at h
    intro surf hsurf
    rw [h] at hsurf
    simp at hsurf
  | some prev => exact CacheCovers_transfer prev env s h (hv prev rfl)

theorem SampledAt_congr (last : Option Env) (s s1 : State)
    (hr : s1.ActiveCollidingComponents = s.ActiveCollidingComponents)
    (hc : s1.LastFrameSocketLocations = s.LastFrameSocketLocations)
    (h : SampledAt last s) : SampledAt last s1 := by
  cases last with
  | none => simp only [SampledAt] at h ⊢; rw [hr]; exact h
  | some prev => exact CacheCovers_congr prev s s1 hr hc h

theorem SampledAt_clearHitActors (last : Option Env) (s : State) (h : SampledAt last s) :
    SampledAt last (ClearHitActors s) := by
  cases last with
  | none => simp only [SampledAt] at h ⊢; simp [ClearHitActors, h]
  | some prev => exact CacheCovers_clearHitActors prev s h

theorem step_sampled (cfg : Settings) (last : Option Env) (env : Env) (a : Action) (s : State)
    (h : SampledAt last s)
    (hv : a.traces env s = true →
      ∀ prev, last = some prev → ValidSince prev env s.ActiveCollidingComponents) :
    ∃ s1, (step cfg env a s).2 = some s1 ∧
      SampledAt (if a.resamples env s then some env else last) s1 := by
  have hset : ∀ p, SampledAt last (SetActiveCollisionPart p s) := fun p =>
    SampledAt_congr last s _ (SetActiveCollisionPart_registry p s)
      (SetActiveCollisionPart_cache p s) h
  cases a with
  | ActivateCollision p =>
    cases hact : s.bIsCollisionActivated with
    | true =>
      refine ⟨SetActiveCollisionPart p s, ?_, ?_⟩
      · simp [step, ActivateCollision_active cfg env p s hact]
      · simpa [Action.resamples, hact] using hset p
    | false =>
      have h1 : (SetActiveCollisionPart p s).bIsCollisionActivated = false := by
        rw [SetActiveCollisionPart_active]; exact hact
      cases hw : env.GetWorld with
      | false =>
        refine ⟨ClearHitActors { SetActiveCollisionPart p s with bIsCollisionActivated := true },
          ?_, ?_⟩
        · simp only [step, ActivateCollision, h1, OnRep_IsCollisionActivated, hw]
          rfl
        · simp only [Action.resamples, hact, hw, Bool.not_false, Bool.and_false,
            Bool.false_eq_true, if_false]
          exact SampledAt_clearHitActors last _
            (SampledAt_congr last (SetActiveCollisionPart p s) _ rfl rfl (hset p))
      | true =>
        have hsamp : SampledAt last (ClearHitActors
            { SetActiveCollisionPart p s with bIsCollisionActivated := true }) :=
          SampledAt_clearHitActors last _
            (SampledAt_congr last (SetActiveCollisionPart p s) _ rfl rfl (hset p))
        have hcov : (ClearHitActors { SetActiveCollisionPart p s with
            bIsCollisionActivated := true }).bCanPerformTrace = true →
            CacheCovers env (ClearHitActors
              { SetActiveCollisionPart p s with bIsCollisionActivated := true }) := by
          intro hb
          have hb1 : s.bCanPerformTrace = true := by
            rw [← SetActiveCollisionPart_canPerformTrace p s]; exact hb
          have hv1 := hv (by simp [Action.traces, hact, hw, hb1])
          apply SampledAt_covers last env _ hsamp
          intro prev hprev surf hsurf c hc hvalid
          simp only [ClearHitActors, List.mem_map] at hsurf
          obtain ⟨surf0, hmem, rfl⟩ := hsurf
          rw [SetActiveCollisionPart_registry] at hmem
          exact hv1 prev hprev surf0 hmem c hc hvalid
        obtain ⟨s1, hs1, hc1⟩ := TraceCheckLoop_covers cfg env _ hcov
        refine ⟨{ s1 with TimerHandle_TraceCheck := true }, ?_, ?_⟩
        · simp only [step, ActivateCollision, h1, OnRep_IsCollisionActivated, hw]
          simp [hs1]
        · simp only [Action.resamples, hact, hw, Bool.not_false, Bool.and_true, if_true]
          exact CacheCovers_congr env s1 _ rfl rfl hc1
  | DeactivateCollision =>
    simp only [step, DeactivateCollision, Action.resamples, Bool.false_eq_true, if_false]
    split
    · simp only [OnRep_IsCollisionActivated, Bool.false_eq_true, if_false]
      refine ⟨_, rfl, ?_⟩
      split
      · exact SampledAt_congr last s _ rfl rfl h
      · exact SampledAt_congr last s _ rfl rfl h
    · exact ⟨_, rfl, h⟩
  | SetActiveCollisionPart p =>
    exact ⟨_, rfl, by simpa [Action.resamples] using hset p⟩
  | UpdateCollidingComponent c l =>
    exact ⟨_, rfl, by simpa [Action.resamples, SampledAt] using UpdateSocketLocations_covers env _⟩
  | UpdateCollidingComponents l =>
    exact ⟨_, rfl, by simpa [Action.resamples, SampledAt] using UpdateSocketLocations_covers env _⟩
  | ClearHitActors =>
    exact ⟨_, rfl, by simpa [Action.resamples] using SampledAt_clearHitActors last s h⟩
  | Tick =>
    have hcov : s.bCanPerformTrace = true → CacheCovers env s := by
      intro hb
      exact SampledAt_covers last env s h (hv (by simp [Action.traces, hb]))
    obtain ⟨s1, hs1, hc1⟩ := TraceCheckLoop_covers cfg env s hcov
    exact ⟨s1, hs1, by simpa [Action.resamples, SampledAt] using hc1⟩

theorem run_sampled (cfg : Settings) (acts : List (Env × Action)) :
    ∀ (last : Option Env) (s : State), SampledAt last s → ValidSinceResample cfg last s acts →
      ∃ s1, (run cfg s acts).2 = some s1 ∧ SampledAt (lastResample cfg last s acts) s1 := by
  induction acts with
  | nil => intro last s h _; exact ⟨s, rfl, h⟩
  | cons ea rest ih =>
    intro last s h hst
    obtain ⟨env, a⟩ := ea
    unfold ValidSinceResample at hst
    obtain ⟨s1, hs1, hc1⟩ := step_sampled cfg last env a s h hst.1
    rw [hs1] at hst
    obtain ⟨s2, hs2, hc2⟩ := ih _ s1 hc1 hst.2
    refine ⟨s2, ?_, ?_⟩
    · unfold run
      rcases hstep : step cfg env a s with ⟨ev, r⟩
      rw [hstep] at hs1
      simp only at hs1
      subst hs1
      simpa using hs2
    · unfold lastResample
      rw [hs1]
      exact hc2

/-- C4: along every run from the initial state in which, whenever
`PerformTraceCheck` runs, a tracked component that is valid then was valid, with
the same name, at the preceding resample, no `LastFrameSocketLocations.Find` of
`PerformTraceCheck` fails: the run never takes the missing-key branch. The state
it reaches is such that a further `PerformTraceCheck`, under the same
assumption, again finds every key. -/
theorem trace_start_always_sampled (cfg : Settings) (acts : List (Env × Action))
    (h : ValidSinceResample cfg none State.initial acts) :
    ∃ s, (run cfg State.initial acts).2 = some s ∧
      ∀ env : Env,
        (∀ prev, lastResample cfg none State.initial acts = some prev →
          ValidSince prev env s.ActiveCollidingComponents) →
        CacheCovers env s ∧ ((PerformTraceCheck cfg env s).2).isSome = true := by
  have h0 : SampledAt none State.initial := rfl
  obtain ⟨s, hs, hc⟩ := run_sampled cfg acts none State.initial h0 h
  refine ⟨s, hs, ?_⟩
  intro env hv
  have hcov := SampledAt_covers _ env s hc hv
  exact ⟨hcov, PerformTraceCheck_no_fault cfg env s hcov⟩

/-! ## C5: ignored classes -/

theorem UClass.IsChildOf_refl (K : UClass) : UClass.IsChildOf K K = true := by
  cases K <;> simp [UClass.IsChildOf]

theorem IsIgnoredClass_iff (cfg : Settings) (K : UClass) :
    IsIgnoredClass cfg K = true ↔
      ∃ B, some B ∈ cfg.IgnoredClasses ∧ UClass.IsChildOf K B = true := by
  unfold IsIgnoredClass
  rw [List.any_eq_true]
  constructor
  · rintro ⟨o, ho, h⟩
    cases o with
    | none => simp at h
    | some B => exact ⟨B, ho, h⟩
  · rintro ⟨B, hB, h⟩
    exact ⟨some B, hB, h⟩

theorem not_child_of_not_ignored (cfg : Settings) (K C : UClass)
    (hC : some C ∈ cfg.IgnoredClasses) (h : IsIgnoredClass cfg K = false) :
    UClass.IsChildOf K C = false := by
  cases hc : UClass.IsChildOf K C with
  | false => rfl
  | true =>
    have := (IsIgnoredClass_iff cfg K).mpr ⟨C, hC, hc⟩
    rw [h] at this
    exact absurd this (by simp)

theorem reportHits_qualify (cfg : Settings) (env : Env) (idx : Nat) (c : UPrimitiveComponent)
    (hits : List FHitResult) :
    ∀ hitActors,
      (∀ e ∈ (reportHits cfg env idx c hits hitActors).1, e.qualifies cfg env = true) ∧
      ∃ added, (reportHits cfg env idx c hits hitActors).2 = hitActors ++ added ∧
        ∀ a ∈ added, IsIgnoredClass cfg (env.GetClass a) = false := by
  induction hits with
  | nil =>
    intro hitActors
    exact ⟨by simp [reportHits], [], by simp [reportHits], by simp⟩
  | cons h rest ih =>
    intro hitActors
    unfold reportHits
    split
    · rename_i b hb
      split
      · rename_i hcond
        simp only [Bool.and_eq_true, beq_iff_eq] at hcond
        obtain ⟨hq, added, hadd, hcls⟩ := ih (hitActors ++ [b])
        constructor
        · intro e he
          simp only [List.mem_cons] at he
          rcases he with rfl | he
          · simp [Event.qualifies, hb, hcond.1.2, hcond.2]
          · exact hq e he
        · refine ⟨b :: added, ?_, ?_⟩
          · simp only [hadd, List.append_assoc, List.singleton_append]
          · intro a ha
            rcases List.mem_cons.mp ha with rfl | ha
            · exact hcond.1.2
            · exact hcls a ha
      · exact ih hitActors
    · exact ih hitActors

theorem traceSockets_qualify (cfg : Settings) (env : Env) (cache : TMap) (idx : Nat)
    (c : UPrimitiveComponent) (sockets : List FName) :
    ∀ hitActors,
      (∀ e ∈ (traceSockets cfg env cache idx c sockets hitActors).1,
        e.qualifies cfg env = true) ∧
      ∀ r, (traceSockets cfg env cache idx c sockets hitActors).2 = some r →
        ∃ added, r = hitActors ++ added ∧
          ∀ a ∈ added, IsIgnoredClass cfg (env.GetClass a) = false := by
  induction sockets with
  | nil =>
    intro hitActors
    refine ⟨by simp [traceSockets], ?_⟩
    intro r hr
    simp only [traceSockets, Option.some.injEq] at hr
    exact ⟨[], by simp [hr], by simp⟩
  | cons sock rest ih =>
    intro hitActors
    unfold traceSockets
    split
    · exact ⟨by simp, by simp⟩
    · rename_i startTrace hfind
      simp only
      split
      · obtain ⟨hq1, added1, hadd1, hcls1⟩ := reportHits_qualify cfg env idx c
          (env.SphereTraceMultiForObjects startTrace
            (FCCCollidingComponent.GetSocketLocation env c sock)
            (hitActors.map some ++ [env.GetOwner] ++ cfg.IgnoredActors)).2 hitActors
        obtain ⟨hq2, hr2⟩ := ih (reportHits cfg env idx c
          (env.SphereTraceMultiForObjects startTrace
            (FCCCollidingComponent.GetSocketLocation env c sock)
            (hitActors.map some ++ [env.GetOwner] ++ cfg.IgnoredActors)).2 hitActors).2
        constructor
        · intro e he
          rcases List.mem_append.mp he with he | he
          · exact hq1 e he
          · exact hq2 e he
        · intro r hr
          obtain ⟨added2, hadd2, hcls2⟩ := hr2 r hr
          refine ⟨added1 ++ added2, ?_, ?_⟩
          · rw [hadd2, hadd1, List.append_assoc]
          · intro a ha
            rcases List.mem_append.mp ha with ha | ha
            · exact hcls1 a ha
            · exact hcls2 a ha
      · obtain ⟨hq2, hr2⟩ := ih hitActors
        constructor
        · intro e he
          simp only [List.nil_append] at he
          exact hq2 e he
        · exact hr2

theorem traceSurface_qualify (cfg : Settings) (env : Env) (cache : TMap) (idx : Nat)
    (surf : FCCCollidingComponent) :
    (∀ e ∈ (traceSurface cfg env cache idx surf).1, e.qualifies cfg env = true) ∧
      ∀ r, (traceSurface cfg env cache idx surf).2 = some r →
        ∃ added, r = surf.HitActors ++ added ∧
          ∀ a ∈ added, IsIgnoredClass cfg (env.GetClass a) = false := by
  have hskip : ∀ r, (some surf.HitActors : Option (List AActor)) = some r →
      ∃ added, r = surf.HitActors ++ added ∧
        ∀ a ∈ added, IsIgnoredClass cfg (env.GetClass a) = false := by
    intro r hr
    simp only [Option.some.injEq] at hr
    exact ⟨[], by simp [hr], by simp⟩
  unfold traceSurface
  split
  · split
    · exact traceSockets_qualify cfg env cache idx _ _ _
    · exact ⟨by simp, hskip⟩
  · exact ⟨by simp, hskip⟩

theorem traceComponents_qualify (cfg : Settings) (env : Env) (cache : TMap)
    (l : List FCCCollidingComponent) :
    ∀ k,
      (∀ e ∈ (traceComponents cfg env cache k l).1, e.qualifies cfg env = true) ∧
      ∀ r, (traceComponents cfg env cache k l).2 = some r →
        ∀ j, ∃ added, hitActorsAt r j = hitActorsAt l j ++ added ∧
          ∀ a ∈ added, IsIgnoredClass cfg (env.GetClass a) = false := by
  induction l with
  | nil =>
    intro k
    refine ⟨by simp [traceComponents], ?_⟩
    intro r hr j
    simp only [traceComponents, Option.some.injEq] at hr
    exact ⟨[], by simp [hr], by simp⟩
  | cons surf rest ih =>
    intro k
    obtain ⟨hq1, hr1⟩ := traceSurface_qualify cfg env cache k surf
    obtain ⟨hq2, hr2⟩ := ih (k + 1)
    unfold traceComponents
    rcases hs : traceSurface cfg env cache k surf with ⟨ev, _ | ha⟩
    · rw [hs] at hq1
      exact ⟨hq1, by simp⟩
    · rw [hs] at hq1 hr1
      constructor
      · intro e he
        rcases List.mem_append.mp he with he | he
        · exact hq1 e he
        · exact hq2 e he
      · intro r hr j
        simp only [Option.map_eq_some'] at hr
        obtain ⟨l1, hl1, rfl⟩ := hr
        cases j with
        | zero =>
          simp only [hitActorsAt_cons_zero]
          exact hr1 ha rfl
        | succ j1 =>
          simp only [hitActorsAt_cons_succ]
          exact hr2 l1 hl1 j1

/-- C5: `IsIgnoredClass K` holds exactly when `K` is a child of (or equal to) an
element of `IgnoredClasses`; and when class `C` is in `IgnoredClasses`, whatever
the state, the world and the hit results of the backend, `PerformTraceCheck`
emits only hit events whose actor is not of class `C` or of a subclass, and
only appends such actors to any surface's `HitActors`. -/
theorem ignored_class_never_reported (cfg : Settings) (C : UClass)
    (hC : some C ∈ cfg.IgnoredClasses) :
    (∀ K, IsIgnoredClass cfg K = true ↔
      ∃ B, some B ∈ cfg.IgnoredClasses ∧ (K = B ∨ UClass.IsChildOf K B = true)) ∧
    IsIgnoredClass cfg C = true ∧
    (∀ (env : Env) (s : State), ∀ e ∈ (PerformTraceCheck cfg env s).1,
      ∃ i h c a, e = Event.Hit i h c ∧ h.Actor = some a ∧
        UClass.IsChildOf (env.GetClass a) C = false ∧ env.GetClass a ≠ C) ∧
    (∀ (env : Env) (s s1 : State), (PerformTraceCheck cfg env s).2 = some s1 →
      ∀ j, ∃ added,
        hitActorsAt s1.ActiveCollidingComponents j
          = hitActorsAt s.ActiveCollidingComponents j ++ added ∧
        ∀ a ∈ added, UClass.IsChildOf (env.GetClass a) C = false ∧ env.GetClass a ≠ C) := by
  have hne : ∀ K, UClass.IsChildOf K C = false → K ≠ C := by
    intro K h heq
    rw [heq, UClass.IsChildOf_refl] at h
    exact absurd h (by simp)
  refine ⟨?_, ?_, ?_, ?_⟩
  · intro K
    rw [IsIgnoredClass_iff]
    constructor
    · rintro ⟨B, hB, h⟩
      exact ⟨B, hB, Or.inr h⟩
    · rintro ⟨B, hB, h | h⟩
      · exact ⟨B, hB, by rw [h]; exact UClass.IsChildOf_refl B⟩
      · exact ⟨B, hB, h⟩
  · exact (IsIgnoredClass_iff cfg C).mpr ⟨C, hC, UClass.IsChildOf_refl C⟩
  · intro env s e he
    have hq := (traceComponents_qualify cfg env s.LastFrameSocketLocations
      s.ActiveCollidingComponents 0).1 e he
    obtain ⟨i, h, c, _, rfl⟩ := traceComponents_events cfg env _ _ 0 e he
    simp only [Event.qualifies] at hq
    split at hq
    · rename_i a ha
      simp only [Bool.and_eq_true, Bool.not_eq_true'] at hq
      have hnc := not_child_of_not_ignored cfg _ C hC hq.1
      exact ⟨i, h, c, a, rfl, ha, hnc, hne _ hnc⟩
    · simp at hq
  · intro env s s1 hs1 j
    unfold PerformTraceCheck at hs1
    simp only [Option.map_eq_some'] at hs1
    obtain ⟨l, hl, rfl⟩ := hs1
    obtain ⟨added, hadd, hcls⟩ := (traceComponents_qualify cfg env s.LastFrameSocketLocations
      s.ActiveCollidingComponents 0).2 l hl j
    refine ⟨added, hadd, ?_⟩
    intro a ha
    have hnc := not_child_of_not_ignored cfg _ C hC (hcls a ha)
    exact ⟨hnc, hne _ hnc⟩

/-! ## C6: the registry is replaced as a whole -/

/-- C6: after `UpdateCollidingComponents S` the registry holds exactly the
surfaces of `S`, in order, each with its component and sockets and with an empty
`HitActors` record (whatever record it was supplied with, and whatever the
previous registry was); the active flag and the collision-part tag are kept. -/
theorem registry_replaced_and_cleared (env : Env) (S : List FCCCollidingComponent)
    (s : State) :
    (UpdateCollidingComponents env S s).ActiveCollidingComponents
        = S.map (fun surf => { surf with HitActors := [] }) ∧
      (UpdateCollidingComponents env S s).ActiveCollidingComponents.map
        (fun surf => (surf.Component, surf.Sockets))
        = S.map (fun surf => (surf.Component, surf.Sockets)) ∧
      (∀ surf ∈ (UpdateCollidingComponents env S s).ActiveCollidingComponents,
        surf.HitActors = []) ∧
      (UpdateCollidingComponents env S s).bIsCollisionActivated = s.bIsCollisionActivated ∧
      (UpdateCollidingComponents env S s).ActivatedCollisionPart = s.ActivatedCollisionPart := by
  refine ⟨rfl, ?_, ?_, rfl, rfl⟩
  · simp [UpdateCollidingComponents, UpdateSocketLocations, ClearHitActors]
  · intro surf hsurf
    simp only [UpdateCollidingComponents, UpdateSocketLocations, ClearHitActors,
      List.mem_map] at hsurf
    obtain ⟨x, _, rfl⟩ := hsurf
    rfl

/-! ## C7: a trace check right after a registry update -/

theorem traceSockets_quiet (cfg : Settings) (env : Env) (cache : TMap) (idx : Nat)
    (c : UPrimitiveComponent) (socks : List FName) (hitActors : List AActor)
    (hq : ∀ st en ign, (env.SphereTraceMultiForObjects st en ign).1 = false)
    (hk : ∀ sock ∈ socks,
      (TMap.Find cache (GenerateUniqueSocketName env c sock)).isSome = true) :
    traceSockets cfg env cache idx c socks hitActors = ([], some hitActors) := by
  induction socks with
  | nil => rfl
  | cons sock rest ih =>
    unfold traceSockets
    have h0 := hk sock (List.mem_cons_self _ _)
    split
    · rename_i hnone
      rw [hnone] at h0
      simp at h0
    · simp only [hq, Bool.false_eq_true, if_false, List.nil_append]
      rw [ih (fun s hs => hk s (List.mem_cons_of_mem _ hs))]

theorem traceComponents_quiet (cfg : Settings) (env : Env) (cache : TMap)
    (hq : ∀ st en ign, (env.SphereTraceMultiForObjects st en ign).1 = false)
    (l : List FCCCollidingComponent) :
    ∀ idx,
      (∀ surf ∈ l, ∀ c, surf.Component = some c → env.IsValid c = true →
        ∀ sock ∈ surf.Sockets,
          (TMap.Find cache (GenerateUniqueSocketName env c sock)).isSome = true) →
      traceComponents cfg env cache idx l = ([], some l) := by
  induction l with
  | nil => intro idx _; rfl
  | cons surf rest ih =>
    intro idx h
    have hhere : traceSurface cfg env cache idx surf = ([], some surf.HitActors) := by
      unfold traceSurface
      split
      · rename_i c hc
        split
        · rename_i hv
          exact traceSockets_quiet cfg env cache idx c _ _ hq
            (h surf (List.mem_cons_self _ _) c hc hv)
        · rfl
      · rfl
    unfold traceComponents
    rw [hhere]
    simp only [ih (idx + 1) (fun s hs => h s (List.mem_cons_of_mem _ hs)),
      List.nil_append, Option.map_some']

theorem PerformTraceCheck_quiet (cfg : Settings) (env : Env) (s : State)
    (hq : ∀ st en ign, (env.SphereTraceMultiForObjects st en ign).1 = false)
    (h : CacheCovers env s) : PerformTraceCheck cfg env s = ([], some s) := by
  unfold PerformTraceCheck
  rw [traceComponents_quiet cfg env _ hq _ 0 h]
  rfl

theorem traceSockets_silent (cfg : Settings) (env : Env) (cache : TMap) (idx : Nat)
    (c : UPrimitiveComponent) (socks : List FName)
    (hq : ∀ st en ign, (env.SphereTraceMultiForObjects st en ign).1 = false) :
    ∀ hitActors, (traceSockets cfg env cache idx c socks hitActors).1 = [] := by
  induction socks with
  | nil => intro hitActors; rfl
  | cons sock rest ih =>
    intro hitActors
    unfold traceSockets
    split
    · rfl
    · simp only [hq, Bool.false_eq_true, if_false, List.nil_append]
      exact ih hitActors

theorem traceComponents_silent (cfg : Settings) (env : Env) (cache : TMap)
    (hq : ∀ st en ign, (env.SphereTraceMultiForObjects st en ign).1 = false)
    (l : List FCCCollidingComponent) :
    ∀ idx, (traceComponents cfg env cache idx l).1 = [] := by
  induction l with
  | nil => intro idx; rfl
  | cons surf rest ih =>
    intro idx
    have hhere : (traceSurface cfg env cache idx surf).1 = [] := by
      unfold traceSurface
      split
      · split
        · exact traceSockets_silent cfg env cache idx _ _ hq _
        · rfl
      · rfl
    unfold traceComponents
    rcases hs : traceSurface cfg env cache idx surf with ⟨ev, _ | ha⟩
    · rw [hs] at hhere
      exact hhere
    · rw [hs] at hhere
      simp only at hhere ⊢
      rw [hhere, ih (idx + 1)]
      rfl

/-- C7, counterexample to the claim as stated: right after
`UpdateCollidingComponents`, with no resample in between and the world
unchanged, `PerformTraceCheck` emits a hit event when the backend returns a
hit. -/
theorem sweep_after_update_can_report_hit :
    (PerformTraceCheck demoSettings demoWorld
        (UpdateCollidingComponents demoWorld
          [{ Component := some 0, Sockets := ["None"], HitActors := [] }] State.initial)).1
      = [Event.Hit 0 ⟨some 7, "CharacterMesh", ⟨0, 0, 0⟩⟩ 0] := by
  decide

/-! ## C8: socket lists of the registry -/

theorem FCCCollidingComponent.make_sockets_ne_nil (component : Option UPrimitiveComponent)
    (sockets : List FName) : (FCCCollidingComponent.make component sockets).Sockets ≠ [] := by
  unfold FCCCollidingComponent.make
  cases sockets <;> simp

/-- The single-surface form always installs a non-empty socket list: the
supplied one, or the sentinel `NAME_None` alone when none was supplied, and the
sentinel is sampled at the component's own world location. -/
theorem single_form_sockets_nonempty (env : Env) (component : Option UPrimitiveComponent)
    (sockets : List FName) (s : State) :
    (∀ surf ∈ (UpdateCollidingComponent env component sockets s).ActiveCollidingComponents,
      surf.Sockets ≠ [] ∧ surf.Sockets = if sockets = [] then [NAME_None] else sockets) ∧
    ∀ c, FCCCollidingComponent.GetSocketLocation env c NAME_None = env.GetComponentLocation c := by
  constructor
  · intro surf hsurf
    simp only [UpdateCollidingComponent, UpdateCollidingComponents, UpdateSocketLocations,
      ClearHitActors, List.map_cons, List.map_nil, List.mem_singleton] at hsurf
    subst hsurf
    constructor
    · exact FCCCollidingComponent.make_sockets_ne_nil component sockets
    · cases sockets <;> simp [FCCCollidingComponent.make]
  · intro c
    simp [FCCCollidingComponent.GetSocketLocation, FName.IsNone]

/-- C8, the code at the failing input: the batch form given a surface with a
valid component and no socket name installs it with an empty socket list (no
sentinel is substituted), so nothing is sampled for it and a trace check does
nothing. -/
theorem batch_form_keeps_empty_socket_list :
    (UpdateCollidingComponents demoWorld
        [{ Component := some 0, Sockets := [], HitActors := [] }]
        State.initial).ActiveCollidingComponents
      = [{ Component := some 0, Sockets := [], HitActors := [] }] ∧
    (UpdateCollidingComponents demoWorld
        [{ Component := some 0, Sockets := [], HitActors := [] }]
        State.initial).LastFrameSocketLocations = [] ∧
    (PerformTraceCheck demoSettings demoWorld
        (UpdateCollidingComponents demoWorld
          [{ Component := some 0, Sockets := [], HitActors := [] }] State.initial)).1 = [] ∧
    (UpdateCollidingComponent demoWorld (some 0) []
        State.initial).ActiveCollidingComponents
      = [{ Component := some 0, Sockets := [NAME_None], HitActors := [] }] := by
  decide

/-! ## C9: cache keys -/

/-- Two sockets of one component get different keys. -/
theorem GenerateUniqueSocketName_same_component (env : Env) (c : UPrimitiveComponent)
    (s1 s2 : FName) (h : GenerateUniqueSocketName env c s1 = GenerateUniqueSocketName env c s2) :
    s1 = s2 := by
  unfold GenerateUniqueSocketName at h
  have hd := congrArg String.data h
  simp only [String.append, List.append_cancel_left_eq] at hd
  exact String.ext hd

/-- C9, the code at the failing input: the tracked points (`Sword`, `1Tip`) and
(`Sword1`, `Tip`) are different but get the same key `Sword1Tip`; after a
resample of both surfaces the cache has one entry, holding the position of the
second point only. -/
theorem distinct_points_share_one_key :
    ((0 : UPrimitiveComponent), ("1Tip" : FName)) ≠ (1, "Tip") ∧
    GenerateUniqueSocketName demoNames 0 "1Tip" = GenerateUniqueSocketName demoNames 1 "Tip" ∧
    FCCCollidingComponent.GetSocketLocation demoNames 0 "1Tip"
      ≠ FCCCollidingComponent.GetSocketLocation demoNames 1 "Tip" ∧
    (UpdateCollidingComponents demoNames
        [{ Component := some 0, Sockets := ["1Tip"], HitActors := [] },
         { Component := some 1, Sockets := ["Tip"], HitActors := [] }]
        State.initial).LastFrameSocketLocations = [("Sword1Tip", ⟨2, 0, 0⟩)] := by
  decide

/-! ## C10: activation while Active -/

theorem SetActiveCollisionPart_eq (t : ECCCollisionPart) (s : State) :
    SetActiveCollisionPart t s = { s with ActivatedCollisionPart := t } := by
  unfold SetActiveCollisionPart
  split
  · rfl
  · rename_i h
    simp only [ne_eq, Decidable.not_not] at h
    cases s
    simp_all

theorem filter_isActivationStarted_of_isHit (log : List Event)
    (h : ∀ e ∈ log, e.isHit = true) : log.filter Event.isActivationStarted = [] := by
  rw [List.filter_eq_nil_iff]
  intro e he
  have := h e he
  cases e <;> simp_all [Event.isHit, Event.isActivationStarted]

theorem ActivateCollision_inactive_started (cfg : Settings) (env : Env) (t : ECCCollisionPart)
    (s : State) (h : s.bIsCollisionActivated = false) :
    (ActivateCollision cfg env t s).1.filter Event.isActivationStarted
      = [Event.CollisionActivated t] := by
  have h1 : (SetActiveCollisionPart t s).bIsCollisionActivated = false := by
    rw [SetActiveCollisionPart_active]; exact h
  have h3 : (SetActiveCollisionPart t s).ActivatedCollisionPart = t := by
    rw [SetActiveCollisionPart_eq]
  simp only [ActivateCollision, h1, OnRep_IsCollisionActivated]
  simp only [beq_self_eq_true, if_true]
  split
  · have := filter_isActivationStarted_of_isHit _
      (TraceCheckLoop_isHit cfg env (ClearHitActors
        { SetActiveCollisionPart t s with bIsCollisionActivated := true }))
    simp only [List.filter_cons, Event.isActivationStarted, if_true, this]
    simp [ClearHitActors, h3]
  · simp [List.filter_cons, Event.isActivationStarted, ClearHitActors, h3]

/-- C10: on an Active component `ActivateCollision t` only sets the
collision-part tag to `t`: no event, and the active flag, the registry with every
`HitActors` record, the position cache, `bCanPerformTrace` and the timer are
unchanged. Hence `ActivateCollision t1` made while Inactive followed at once by
`ActivateCollision t2` emits exactly one activation-started event, carrying
`t1`, no event for the second call, and ends with the tag `t2` and the hit
records the first call left. -/
theorem reactivation_only_updates_tag (cfg : Settings) (env : Env) (t : ECCCollisionPart)
    (s : State) (h : s.bIsCollisionActivated = true) :
    ActivateCollision cfg env t s = ([], some { s with ActivatedCollisionPart := t }) ∧
    ∀ (env1 env2 : Env) (t1 t2 : ECCCollisionPart) (s0 s1 : State),
      s0.bIsCollisionActivated = false →
      (ActivateCollision cfg env1 t1 s0).2 = some s1 →
        (run cfg s0 [(env1, Action.ActivateCollision t1),
            (env2, Action.ActivateCollision t2)]).1.filter Event.isActivationStarted
          = [Event.CollisionActivated t1] ∧
        (run cfg s0 [(env1, Action.ActivateCollision t1),
            (env2, Action.ActivateCollision t2)]).1 = (ActivateCollision cfg env1 t1 s0).1 ∧
        (run cfg s0 [(env1, Action.ActivateCollision t1),
            (env2, Action.ActivateCollision t2)]).2
          = some { s1 with ActivatedCollisionPart := t2 } := by
  constructor
  · rw [ActivateCollision_active cfg env t s h, SetActiveCollisionPart_eq]
  · intro env1 env2 t1 t2 s0 s1 h0 hs1
    have hact : s1.bIsCollisionActivated = true :=
      (ActivateCollision_inactive_fresh cfg env1 t1 s0 0 0 h0).2 s1 hs1
    have hrun : run cfg s0 [(env1, Action.ActivateCollision t1),
        (env2, Action.ActivateCollision t2)]
        = ((ActivateCollision cfg env1 t1 s0).1,
            some { s1 with ActivatedCollisionPart := t2 }) := by
      rcases hA : ActivateCollision cfg env1 t1 s0 with ⟨ev, r⟩
      rw [hA] at hs1
      simp only at hs1
      subst hs1
      simp [run, step, hA, ActivateCollision_active cfg env2 t2 s1 hact,
        SetActiveCollisionPart_eq]
    rw [hrun]
    exact ⟨ActivateCollision_inactive_started cfg env1 t1 s0 h0, rfl, rfl⟩

/-! ## The properties at concrete inputs -/

theorem activation_started_events_match_transitions_witness :
    activationStartedCount (run demoSettings State.initial demoSession).1
        = inactiveActivations demoSettings State.initial demoSession ∧
      (ActivateCollision demoSettings demoWorld ECCCollisionPart.SecondaryItem demoActive).1
        = [] :=
  ⟨(activation_started_events_match_transitions demoSettings demoSession).1,
    (activation_started_events_match_transitions demoSettings demoSession).2
      demoWorld ECCCollisionPart.SecondaryItem demoActive (by decide)⟩

theorem one_hit_per_surface_and_actor_in_window_witness :
    hitCount 0 7 (run demoSettings demoSessionEnd
        ((demoWorld, Action.ActivateCollision ECCCollisionPart.PrimaryItem) :: demoWindow)).1 ≤ 1 ∧
      hitCount 0 7 (PerformTraceCheck demoSettings demoWorld demoActive).1 = 0 :=
  ⟨(one_hit_per_surface_and_actor_in_window demoSettings demoWorld
      ECCCollisionPart.PrimaryItem demoSessionEnd demoWindow 0 7 (by decide) (by decide)).1,
    (one_hit_per_surface_and_actor_in_window demoSettings demoWorld
      ECCCollisionPart.PrimaryItem demoSessionEnd demoWindow 0 7 (by decide) (by decide)).2
      demoWorld demoActive (by decide)⟩

theorem ValidSinceResample_same_world (cfg : Settings) (env : Env)
    (acts : List (Env × Action)) :
    ∀ last s, (∀ prev, last = some prev → prev = env) → (∀ ea ∈ acts, ea.1 = env) →
      ValidSinceResample cfg last s acts := by
  induction acts with
  | nil => intro last s _ _; trivial
  | cons ea rest ih =>
    intro last s hl h
    obtain ⟨env1, a⟩ := ea
    have he : env1 = env := h (env1, a) (List.mem_cons_self _ _)
    subst he
    unfold ValidSinceResample
    constructor
    · intro _ prev hprev surf _ c _ hv
      rw [hl prev hprev]
      exact ⟨hv, rfl⟩
    · split
      · apply ih
        · intro prev hprev
          split at hprev
          · simp only [Option.some.injEq] at hprev
            exact hprev.symm
          · exact hl prev hprev
        · exact fun ea hea => h ea (List.mem_cons_of_mem _ hea)
      · trivial

theorem trace_start_always_sampled_witness :
    ((run demoSettings State.initial demoSession).2).isSome = true := by
  obtain ⟨s, hs, _⟩ := trace_start_always_sampled demoSettings demoSession
    (ValidSinceResample_same_world demoSettings demoWorld demoSession none State.initial
      (by simp) (by simp [demoSession]))
  rw [hs]
  rfl

theorem ignored_class_never_reported_witness :
    IsIgnoredClass demoSettings (UClass.derived 1 (UClass.root 0)) = true :=
  (ignored_class_never_reported demoSettings (UClass.derived 1 (UClass.root 0))
    (by decide)).2.1

theorem registry_replaced_and_cleared_witness :
    (UpdateCollidingComponents demoWorld
        [{ Component := some 0, Sockets := ["Tip"], HitActors := [7] }]
        demoActive).ActiveCollidingComponents
      = [{ Component := some 0, Sockets := ["Tip"], HitActors := [] }] :=
  (registry_replaced_and_cleared demoWorld
    [{ Component := some 0, Sockets := ["Tip"], HitActors := [7] }] demoActive).1

theorem reactivation_only_updates_tag_witness :
    ActivateCollision demoSettings demoWorld ECCCollisionPart.SecondaryItem demoActive
      = ([], some { demoActive with ActivatedCollisionPart := ECCCollisionPart.SecondaryItem }) :=
  (reactivation_only_updates_tag demoSettings demoWorld ECCCollisionPart.SecondaryItem
    demoActive (by decide)).1

/-! ## C11: deactivation -/

/-- C11 (as amended): `DeactivateCollision` on an Inactive component changes
nothing and emits nothing. On an Active component it emits exactly one
deactivation event and leaves the component Inactive with `bCanPerformTrace`
reset, the registry (with every `HitActors` record), the collision-part tag and
the position cache unchanged; the cadence timer is cleared when the component
has a world, and left as it was when it has none. -/
theorem deactivation_effects (cfg : Settings) (env : Env) (s : State) :
    (s.bIsCollisionActivated = false → DeactivateCollision cfg env s = ([], some s)) ∧
    (s.bIsCollisionActivated = true → env.GetWorld = true →
      DeactivateCollision cfg env s =
        ([Event.CollisionDeactivated],
          some { s with
            bIsCollisionActivated := false
            bCanPerformTrace := false
            TimerHandle_TraceCheck := false })) ∧
    (s.bIsCollisionActivated = true → env.GetWorld = false →
      DeactivateCollision cfg env s =
        ([Event.CollisionDeactivated],
          some { s with
            bIsCollisionActivated := false
            bCanPerformTrace := false })) := by
  refine ⟨?_, ?_, ?_⟩
  · intro h
    simp [DeactivateCollision, h]
  · intro h hw
    simp [DeactivateCollision, h, OnRep_IsCollisionActivated, hw]
  · intro h hw
    simp [DeactivateCollision, h, OnRep_IsCollisionActivated, hw]

theorem deactivation_effects_witness :
    DeactivateCollision demoSettings demoWorld demoActive =
      ([Event.CollisionDeactivated],
        some { demoActive with
          bIsCollisionActivated := false
          bCanPerformTrace := false
          TimerHandle_TraceCheck := false }) :=
  (deactivation_effects demoSettings demoWorld demoActive).2.1 (by decide) (by decide)

/-- C11, counterexample to the claim as stated: a window opened in a world and
closed by a `DeactivateCollision` made when the component has no world leaves
the component Inactive with the cadence timer still set. -/
theorem deactivation_without_world_keeps_timer :
    (run demoSettings State.initial
        [(demoWorld, Action.UpdateCollidingComponent (some 0) []),
         (demoWorld, Action.ActivateCollision ECCCollisionPart.PrimaryItem),
         (demoNoWorld, Action.DeactivateCollision)]).2.map
      (fun s => (s.bIsCollisionActivated, s.TimerHandle_TraceCheck)) = some (false, true) ∧
    (DeactivateCollision demoSettings demoNoWorld demoActive).2.map
      (fun s => (s.bIsCollisionActivated, s.TimerHandle_TraceCheck)) = some (false, true) := by
  decide

/-! ## C17: de-duplication is per surface -/

/-- C17: with a registry of two surfaces naming the same component, one
`PerformTraceCheck` inside an activation window emits two hit events for the
same actor, one per surface: each surface consults and appends to its own
`HitActors` record only. -/
theorem dedup_is_per_surface :
    run demoSettings State.initial
        [(demoWorld, Action.UpdateCollidingComponents
            [{ Component := some 0, Sockets := ["Tip"], HitActors := [] },
             { Component := some 0, Sockets := ["Tip"], HitActors := [] }]),
         (demoWorld, Action.ActivateCollision ECCCollisionPart.PrimaryItem),
         (demoWorld, Action.Tick)]
      = ([Event.CollisionActivated ECCCollisionPart.PrimaryItem,
          Event.Hit 0 ⟨some 7, "CharacterMesh", ⟨0, 0, 0⟩⟩ 0,
          Event.Hit 1 ⟨some 7, "CharacterMesh", ⟨0, 0, 0⟩⟩ 0],
         some
          { ActiveCollidingComponents :=
              [{ Component := some 0, Sockets := ["Tip"], HitActors := [7] },
               { Component := some 0, Sockets := ["Tip"], HitActors := [7] }]
            ActivatedCollisionPart := ECCCollisionPart.PrimaryItem
            bIsCollisionActivated := true
            bCanPerformTrace := true
            LastFrameSocketLocations := [("SwordTip", ⟨1, 0, 0⟩)]
            TimerHandle_TraceCheck := true }) ∧
    (PerformTraceCheck demoSettings demoWorld
        { demoActive with
          ActiveCollidingComponents :=
            [{ Component := some 0, Sockets := ["None"], HitActors := [] },
             { Component := some 0, Sockets := ["None"], HitActors := [] }] }).1
      = [Event.Hit 0 ⟨some 7, "CharacterMesh", ⟨0, 0, 0⟩⟩ 0,
         Event.Hit 1 ⟨some 7, "CharacterMesh", ⟨0, 0, 0⟩⟩ 0] := by
  decide

/-! ## The rotating-owner component: start and stop -/

theorem TickComponent_no_fault {F R : Type} [Add F] [LinearOrder F] (DeltaTime : F)
    (env : RotatingEnv F R) (c : RotatingOwner F) :
    ∃ c1, (TickComponent DeltaTime env c).2 = some c1 ∧
      (c.ComponentTickEnabled = c.bIsRotating → c1.ComponentTickEnabled = c1.bIsRotating) := by
  unfold TickComponent
  split
  · split
    · rename_i owner hown
      split
      · simp only
        split
        · simp only [SetOwnerRotation, hown]
          exact ⟨_, rfl, fun h => h⟩
        · exact ⟨_, rfl, fun _ => rfl⟩
      · exact ⟨_, rfl, fun _ => rfl⟩
    · exact ⟨_, rfl, fun _ => rfl⟩
  · exact ⟨c, rfl, fun h => h⟩

theorem rotatingStep_tick_matches {F R : Type} [Add F] [LinearOrder F] [Zero F] [Div F]
    (env : RotatingEnv F R) (a : RotatingAction F) (c : RotatingOwner F)
    (h : c.ComponentTickEnabled = c.bIsRotating) :
    ∃ c1, (rotatingStep env a c).2 = some c1 ∧ c1.ComponentTickEnabled = c1.bIsRotating := by
  cases a with
  | StartRotating time rate => exact ⟨_, rfl, rfl⟩
  | StartRotatingWithLimit m rate => exact ⟨_, rfl, rfl⟩
  | StopRotating => exact ⟨_, rfl, rfl⟩
  | TickComponent DeltaTime =>
    obtain ⟨c1, hc1, htick⟩ := TickComponent_no_fault DeltaTime env c
    exact ⟨c1, hc1, htick h⟩

theorem rotatingRun_tick_matches {F R : Type} [Add F] [LinearOrder F] [Zero F] [Div F]
    (acts : List (RotatingEnv F R × RotatingAction F)) :
    ∀ c : RotatingOwner F, c.ComponentTickEnabled = c.bIsRotating →
      ∃ c1, (rotatingRun c acts).2 = some c1 ∧ c1.ComponentTickEnabled = c1.bIsRotating := by
  induction acts with
  | nil => intro c h; exact ⟨c, rfl, h⟩
  | cons ea rest ih =>
    intro c h
    obtain ⟨env, a⟩ := ea
    obtain ⟨c1, hc1, h1⟩ := rotatingStep_tick_matches env a c h
    obtain ⟨c2, hc2, h2⟩ := ih c1 h1
    refine ⟨c2, ?_, h2⟩
    unfold rotatingRun
    rcases hstep : rotatingStep env a c with ⟨ev, r⟩
    rw [hstep] at hc1
    simp only at hc1
    subst hc1
    simpa using hc2

/-- C12 (as amended): `StopRotating` is idempotent on the state: a second
`StopRotating` leaves the state the first one left, and in every state the
component's operations reach from construction a `StopRotating` on a task that
is not running changes no state. But every `StopRotating` emits a rotation-ended
event, also on a task that is not running, so `StopRotating; StopRotating`
emits two such events where a single `StopRotating` emits one. -/
theorem stop_is_idempotent_on_state_only {F R : Type} [Add F] [LinearOrder F] [Zero F] [Div F]
    [NatCast F] (acts : List (RotatingEnv F R × RotatingAction F)) (c : RotatingOwner F)
    (hc : (rotatingRun RotatingOwner.initial acts).2 = some c) :
    (c.bIsRotating = false → (StopRotating c : RotatingResult F R).2 = c) ∧
    (∀ c0 : RotatingOwner F,
      (StopRotating (StopRotating c0 : RotatingResult F R).2 : RotatingResult F R).2
        = (StopRotating c0 : RotatingResult F R).2) ∧
    (∀ c0 : RotatingOwner F,
      (StopRotating c0 : RotatingResult F R).1 = [RotatingEvent.RotatingEnd]) ∧
    (∀ (c0 : RotatingOwner F) (env1 env2 : RotatingEnv F R),
      rotatingRun c0 [(env1, RotatingAction.StopRotating), (env2, RotatingAction.StopRotating)]
        = ([RotatingEvent.RotatingEnd, RotatingEvent.RotatingEnd],
            some (StopRotating c0 : RotatingResult F R).2)) := by
  refine ⟨?_, fun c0 => rfl, fun c0 => rfl, fun c0 env1 env2 => rfl⟩
  obtain ⟨c1, hc1, htick⟩ :=
    rotatingRun_tick_matches acts (RotatingOwner.initial : RotatingOwner F) rfl
  rw [hc] at hc1
  simp only [Option.some.injEq] at hc1
  subst hc1
  intro hrun
  cases c
  simp_all [StopRotating]

theorem stop_is_idempotent_on_state_only_witness :
    (StopRotating demoStopped : RotatingResult Int Int).2 = demoStopped :=
  (stop_is_idempotent_on_state_only
    [(demoRotatingWorld, RotatingAction.StartRotating 1000 540),
     (demoRotatingWorld, RotatingAction.StopRotating)] demoStopped (by decide)).1 (by decide)

/-- C12, counterexample to the claim as stated: `StopRotating` on a task that is
not running emits a rotation-ended event. -/
theorem redundant_stop_emits_end_event :
    demoIdle.bIsRotating = false ∧
    (StopRotating demoIdle : RotatingResult Int Int) = ([RotatingEvent.RotatingEnd], demoIdle) := by
  decide

/-- C13: from every prior state, running or not, `StartRotating time rate`
leaves a running task with `TimeElapsed` 0, `RotatingTime` `time` and
`DegreesPerSecond` `rate` (and the component tick enabled), and emits exactly
one rotation-started event and no rotation-ended event. -/
theorem start_rotating_resets_task {F R : Type} [Zero F] (time rate : F) (c : RotatingOwner F) :
    (StartRotating time rate c : RotatingResult F R)
      = ([RotatingEvent.RotatingStart],
          { bIsRotating := true
            TimeElapsed := 0
            RotatingTime := time
            DegreesPerSecond := rate
            ComponentTickEnabled := true }) ∧
    rotatingEndCount (StartRotating time rate c : RotatingResult F R).1 = 0 ∧
    (StartRotating time rate c : RotatingResult F R).1.length = 1 :=
  ⟨rfl, rfl, rfl⟩

/-- C14: `StartRotatingWithLimit maxPossibleRotation degreesPerSecond` has the
state and the events of `StartRotating (maxPossibleRotation / degreesPerSecond)
degreesPerSecond`, from every prior state and for every rate; with 180 degrees
at 360 degrees per second the rotating time is half a second. -/
theorem start_with_limit_divides {F R : Type} [Zero F] [Div F] (maxPossibleRotation rate : F)
    (c : RotatingOwner F) :
    (StartRotatingWithLimit maxPossibleRotation rate c : RotatingResult F R)
      = StartRotating (maxPossibleRotation / rate) rate c ∧
    ∀ c1 : RotatingOwner Rat,
      (StartRotatingWithLimit 180 360 c1 : RotatingResult Rat R).2.RotatingTime = 1 / 2 := by
  refine ⟨rfl, ?_⟩
  intro c1
  norm_num [StartRotatingWithLimit, StartRotating]

/-! ## C16: a tick without a target -/

/-- C16: a tick of a running task whose owner is absent or does not implement
the desired-rotation interface stops the task: one rotation-ended event, no
rotation applied, `bIsRotating` false (and the component tick disabled),
`TimeElapsed` and the other fields unchanged, no fault. A tick of a task that
is not running changes nothing and emits nothing. -/
theorem tick_without_target_stops {F R : Type} [Add F] [LinearOrder F] (DeltaTime : F)
    (env : RotatingEnv F R) (c : RotatingOwner F) :
    (c.bIsRotating = true → env.supplies = false →
      TickComponent DeltaTime env c =
        ([RotatingEvent.RotatingEnd],
          some { c with bIsRotating := false, ComponentTickEnabled := false })) ∧
    (c.bIsRotating = false → TickComponent DeltaTime env c = ([], some c)) := by
  constructor
  · intro hrun hsup
    unfold RotatingEnv.supplies at hsup
    unfold TickComponent
    simp only [hrun, if_true]
    split
    · rename_i owner hown
      simp only [hown] at hsup
      simp [hsup, completed, StopRotating]
    · simp [completed, StopRotating]
  · intro hrun
    simp [TickComponent, hrun]

theorem tick_without_target_stops_witness :
    TickComponent 400 demoNoOwner demoRotating =
      ([RotatingEvent.RotatingEnd],
        some { demoRotating with bIsRotating := false, ComponentTickEnabled := false }) :=
  (tick_without_target_stops 400 demoNoOwner demoRotating).1 (by decide) (by decide)

/-! ## C15: a rotation task runs until the elapsed time exceeds its duration -/

theorem elapsedFrom_cons {F R : Type} [Add F] (e d : F) (env : RotatingEnv F R)
    (rest : List (F × RotatingEnv F R)) :
    elapsedFrom e ((d, env) :: rest) = elapsedFrom (e + d) rest := rfl

theorem elapsedFrom_ge {F R : Type} [Add F] [LinearOrder F] [Zero F]
    (hmono : ∀ x d : F, 0 < d → x ≤ x + d) (ticks : List (F × RotatingEnv F R)) :
    ∀ e : F, (∀ t ∈ ticks, 0 < t.1) → e ≤ elapsedFrom e ticks := by
  induction ticks with
  | nil => intro e _; exact le_refl e
  | cons t rest ih =>
    intro e hpos
    obtain ⟨d, env⟩ := t
    rw [elapsedFrom_cons]
    exact le_trans (hmono e d (hpos (d, env) (List.mem_cons_self _ _)))
      (ih (e + d) (fun t ht => hpos t (List.mem_cons_of_mem _ ht)))

theorem runTicks_stopped {F R : Type} [Add F] [LinearOrder F]
    (ticks : List (F × RotatingEnv F R)) :
    ∀ c : RotatingOwner F, c.bIsRotating = false → runTicks c ticks = ([], some c) := by
  induction ticks with
  | nil => intro c _; rfl
  | cons t rest ih =>
    intro c hc
    obtain ⟨d, env⟩ := t
    have ht : TickComponent d env c = ([], some c) := by simp [TickComponent, hc]
    unfold runTicks
    rw [ht]
    simp only [ih c hc, List.append_nil]

theorem TickComponent_within {F R : Type} [Add F] [LinearOrder F] (d : F)
    (env : RotatingEnv F R) (c : RotatingOwner F) (hrun : c.bIsRotating = true)
    (hsup : env.supplies = true) (hle : c.TimeElapsed + d ≤ c.RotatingTime) :
    ∃ o, env.GetOwner = some o ∧
      TickComponent d env c =
        ([RotatingEvent.SetActorRotation
            (env.RInterpTo_Constant o.GetActorRotation o.GetDesiredRotation d c.DegreesPerSecond)],
          some { c with TimeElapsed := c.TimeElapsed + d }) := by
  unfold RotatingEnv.supplies at hsup
  cases hown : env.GetOwner with
  | none => simp [hown] at hsup
  | some o =>
    simp only [hown] at hsup
    refine ⟨o, rfl, ?_⟩
    simp [TickComponent, hrun, hown, hsup, hle, SetOwnerRotation]

theorem TickComponent_beyond {F R : Type} [Add F] [LinearOrder F] (d : F)
    (env : RotatingEnv F R) (c : RotatingOwner F) (hrun : c.bIsRotating = true)
    (hsup : env.supplies = true) (hlt : c.RotatingTime < c.TimeElapsed + d) :
    TickComponent d env c =
      ([RotatingEvent.RotatingEnd],
        some { c with
          TimeElapsed := c.TimeElapsed + d
          bIsRotating := false
          ComponentTickEnabled := false }) := by
  unfold RotatingEnv.supplies at hsup
  cases hown : env.GetOwner with
  | none => simp [hown] at hsup
  | some o =>
    simp only [hown] at hsup
    simp [TickComponent, hrun, hown, hsup, not_le.mpr hlt, completed, StopRotating]

theorem runTicks_running {F R : Type} [Add F] [LinearOrder F] [Zero F]
    (hmono : ∀ x d : F, 0 < d → x ≤ x + d) (ticks : List (F × RotatingEnv F R)) :
    ∀ c : RotatingOwner F, c.bIsRotating = true → ticks ≠ [] →
      (∀ t ∈ ticks, 0 < t.1) → (∀ t ∈ ticks, t.2.supplies = true) →
      ∃ c1, (runTicks c ticks).2 = some c1 ∧
        c1.RotatingTime = c.RotatingTime ∧ c1.DegreesPerSecond = c.DegreesPerSecond ∧
        (c1.bIsRotating = true ↔ elapsedFrom c.TimeElapsed ticks ≤ c.RotatingTime) ∧
        (c1.bIsRotating = true → c1.TimeElapsed = elapsedFrom c.TimeElapsed ticks) ∧
        rotatingEndCount (runTicks c ticks).1 =
          if elapsedFrom c.TimeElapsed ticks ≤ c.RotatingTime then 0 else 1 := by
  induction ticks with
  | nil => intro c _ hne; exact absurd rfl hne
  | cons t rest ih =>
    intro c hrun _ hpos hsup
    obtain ⟨d, env⟩ := t
    have hd := hpos (d, env) (List.mem_cons_self _ _)
    have hs := hsup (d, env) (List.mem_cons_self _ _)
    have hpos1 : ∀ t ∈ rest, 0 < t.1 := fun t ht => hpos t (List.mem_cons_of_mem _ ht)
    have hsup1 : ∀ t ∈ rest, t.2.supplies = true :=
      fun t ht => hsup t (List.mem_cons_of_mem _ ht)
    rw [elapsedFrom_cons]
    unfold runTicks
    by_cases hle : c.TimeElapsed + d ≤ c.RotatingTime
    · obtain ⟨o, _, htick⟩ := TickComponent_within d env c hrun hs hle
      rw [htick]
      simp only
      cases rest with
      | nil =>
        refine ⟨{ c with TimeElapsed := c.TimeElapsed + d }, rfl, rfl, rfl, ?_, ?_, ?_⟩
        · simp [elapsedFrom, hrun, hle]
        · intro _; rfl
        · simp [runTicks, elapsedFrom, hle, rotatingEndCount, RotatingEvent.isEnd]
      | cons t1 rest1 =>
        obtain ⟨c1, hc1, hD, hR, hiff, hte, hcount⟩ :=
          ih { c with TimeElapsed := c.TimeElapsed + d } hrun (by simp) hpos1 hsup1
        refine ⟨c1, hc1, hD, hR, hiff, hte, ?_⟩
        simp only [rotatingEndCount, List.countP_append] at hcount ⊢
        simp only [List.countP_cons, List.countP_nil, RotatingEvent.isEnd] at hcount ⊢
        simpa using hcount
    · have hlt : c.RotatingTime < c.TimeElapsed + d := not_le.mp hle
      rw [TickComponent_beyond d env c hrun hs hlt]
      simp only
      rw [runTicks_stopped rest _ rfl]
      have hge := elapsedFrom_ge hmono rest (c.TimeElapsed + d) hpos1
      have hnot : ¬ elapsedFrom (c.TimeElapsed + d) rest ≤ c.RotatingTime :=
        not_le.mpr (lt_of_lt_of_le hlt hge)
      refine ⟨_, rfl, rfl, rfl, ?_, ?_, ?_⟩
      · simp [hnot]
      · intro h; simp at h
      · simp [hnot, rotatingEndCount, RotatingEvent.isEnd]

theorem runTicks_after_start {F R : Type} [Add F] [LinearOrder F] [Zero F]
    (hmono : ∀ x d : F, 0 < d → x ≤ x + d) (D rate : F) (c0 c1 : RotatingOwner F)
    (hc1 : c1 = (StartRotating D rate c0 : RotatingResult F R).2)
    (pre : List (F × RotatingEnv F R))
    (hpos : ∀ t ∈ pre, 0 < t.1) (hsup : ∀ t ∈ pre, t.2.supplies = true) :
    ∃ c, (runTicks c1 pre).2 = some c ∧
      c.RotatingTime = D ∧ c.DegreesPerSecond = rate ∧
      (c.bIsRotating = true → c.TimeElapsed = elapsed pre) ∧
      (pre ≠ [] → (c.bIsRotating = true ↔ elapsed pre ≤ D)) ∧
      (pre = [] → c.bIsRotating = true) := by
  have hrun : c1.bIsRotating = true := by rw [hc1]; rfl
  have hD : c1.RotatingTime = D := by rw [hc1]; rfl
  have hR : c1.DegreesPerSecond = rate := by rw [hc1]; rfl
  have hT : c1.TimeElapsed = 0 := by rw [hc1]; rfl
  cases pre with
  | nil =>
    refine ⟨c1, rfl, hD, hR, ?_, ?_, fun _ => hrun⟩
    · intro _; rw [hT]; rfl
    · intro h; exact absurd rfl h
  | cons t rest =>
    obtain ⟨c, hc, hD1, hR1, hiff, hte, _⟩ :=
      runTicks_running hmono (t :: rest) c1 hrun (by simp) hpos hsup
    rw [hT, hD] at hiff
    rw [hT] at hte
    exact ⟨c, hc, hD1.trans hD, hR1.trans hR, hte, fun _ => hiff, fun h => by simp at h⟩

/-- C15 (as amended): after `StartRotating D rate`, over frames with positive
delta times in which the owner is there and implements the desired-rotation
interface, with no other call: after any frame the task is still running
exactly when the time accumulated in `TimeElapsed` so far, `((0 + d1) + d2) +
...` in the arithmetic of the machine, is at most `D`; a frame that keeps the
accumulated time within `D` applies the interpolated rotation to the owner and
emits nothing else; the first frame that takes it beyond `D` emits one
rotation-ended event and applies no rotation, and the time accumulated before
that frame was at most `D`, so that, where adding the delta time keeps the
order and the task was started for a time that is not negative or has been
ticked before, the time accumulated with that frame is at most `D` plus its
delta time; later frames do nothing. Over all frames exactly one
rotation-ended event is emitted if the accumulated time ends beyond `D`, none
otherwise. The number type is any linear order whose addition of a positive
amount does not decrease a value, so the addition may round. -/
theorem rotation_runs_until_elapsed_exceeds_duration {F R : Type} [Add F] [LinearOrder F]
    [Zero F] (hmono : ∀ x d : F, 0 < d → x ≤ x + d) (D rate : F) (c0 c1 : RotatingOwner F)
    (hc1 : c1 = (StartRotating D rate c0 : RotatingResult F R).2)
    (ticks : List (F × RotatingEnv F R))
    (hpos : ∀ t ∈ ticks, 0 < t.1) (hsup : ∀ t ∈ ticks, t.2.supplies = true) :
    (∀ pre post, ticks = pre ++ post → pre ≠ [] →
      ∃ c, (runTicks c1 pre).2 = some c ∧ (c.bIsRotating = true ↔ elapsed pre ≤ D)) ∧
    (∀ pre d env post, ticks = pre ++ (d, env) :: post →
      ∃ c, (runTicks c1 pre).2 = some c ∧
        (elapsed pre + d ≤ D →
          ∃ o, env.GetOwner = some o ∧
            TickComponent d env c =
              ([RotatingEvent.SetActorRotation
                  (env.RInterpTo_Constant o.GetActorRotation o.GetDesiredRotation d rate)],
                some { c with TimeElapsed := elapsed pre + d })) ∧
        (c.bIsRotating = true → D < elapsed pre + d →
          (TickComponent d env c).1 = [RotatingEvent.RotatingEnd] ∧
          (TickComponent d env c).2.map (fun c2 => c2.bIsRotating) = some false ∧
          (pre ≠ [] → elapsed pre ≤ D) ∧
          ((∀ x y : F, x ≤ y → x + d ≤ y + d) → (pre ≠ [] ∨ 0 ≤ D) →
            elapsed pre + d ≤ D + d)) ∧
        (c.bIsRotating = false → TickComponent d env c = ([], some c))) ∧
    (ticks ≠ [] →
      rotatingEndCount (runTicks c1 ticks).1 = if elapsed ticks ≤ D then 0 else 1) := by
  refine ⟨?_, ?_, ?_⟩
  · intro pre post hsplit hne
    have hpos1 : ∀ t ∈ pre, 0 < t.1 := fun t ht =>
      hpos t (by rw [hsplit]; exact List.mem_append_left _ ht)
    have hsup1 : ∀ t ∈ pre, t.2.supplies = true := fun t ht =>
      hsup t (by rw [hsplit]; exact List.mem_append_left _ ht)
    obtain ⟨c, hc, _, _, _, hiff, _⟩ :=
      runTicks_after_start hmono D rate c0 c1 hc1 pre hpos1 hsup1
    exact ⟨c, hc, hiff hne⟩
  · intro pre d env post hsplit
    have hpos1 : ∀ t ∈ pre, 0 < t.1 := fun t ht =>
      hpos t (by rw [hsplit]; exact List.mem_append_left _ ht)
    have hsup1 : ∀ t ∈ pre, t.2.supplies = true := fun t ht =>
      hsup t (by rw [hsplit]; exact List.mem_append_left _ ht)
    have hmem : (d, env) ∈ ticks := by
      rw [hsplit]; exact List.mem_append_right _ (List.mem_cons_self _ _)
    have hd : 0 < d := hpos (d, env) hmem
    have hs : env.supplies = true := hsup (d, env) hmem
    obtain ⟨c, hc, hD, hR, hte, hiff, hnil⟩ :=
      runTicks_after_start hmono D rate c0 c1 hc1 pre hpos1 hsup1
    refine ⟨c, hc, ?_, ?_, ?_⟩
    · intro hle
      have hrun : c.bIsRotating = true := by
        by_cases hp : pre = []
        · exact hnil hp
        · exact (hiff hp).mpr (le_trans (hmono (elapsed pre) d hd) hle)
      have hle1 : c.TimeElapsed + d ≤ c.RotatingTime := by
        rw [hte hrun, hD]; exact hle
      obtain ⟨o, ho, htick⟩ := TickComponent_within d env c hrun hs hle1
      refine ⟨o, ho, ?_⟩
      rw [htick, hR, hte hrun]
    · intro hrun hlt
      have hlt1 : c.RotatingTime < c.TimeElapsed + d := by
        rw [hte hrun, hD]; exact hlt
      rw [TickComponent_beyond d env c hrun hs hlt1]
      refine ⟨rfl, rfl, fun hp => (hiff hp).mp hrun, fun hadd hor => hadd _ _ ?_⟩
      by_cases hp : pre = []
      · rcases hor with h | h
        · exact absurd hp h
        · subst hp
          exact h
      · exact (hiff hp).mp hrun
    · intro hrun
      simp [TickComponent, hrun]
  · intro hne
    have hrun : c1.bIsRotating = true := by rw [hc1]; rfl
    obtain ⟨_, _, _, _, _, _, hcount⟩ := runTicks_running hmono ticks c1 hrun hne hpos hsup
    have hD : c1.RotatingTime = D := by rw [hc1]; rfl
    have hT : c1.TimeElapsed = 0 := by rw [hc1]; rfl
    rw [hT, hD] at hcount
    exact hcount

theorem rotation_runs_until_elapsed_exceeds_duration_witness :
    rotatingEndCount (runTicks demoStarted demoFrames).1
      = if elapsed demoFrames ≤ 1000 then 0 else 1 :=
  (rotation_runs_until_elapsed_exceeds_duration (fun x d h => by omega) 1000 540
    demoIdle demoStarted (by decide) demoFrames (by decide) (by decide)).2.2
    (by simp [demoFrames])

/-- With exact arithmetic the accumulated time is the sum of the delta times. -/
theorem elapsed_eq_sum {F R : Type} [AddCommMonoid F] (ticks : List (F × RotatingEnv F R)) :
    elapsed ticks = (ticks.map Prod.fst).sum := by
  unfold elapsed elapsedFrom
  rw [List.sum_eq_foldl]

/-- C15, counterexample to the claim as stated: in `float` arithmetic, a task
started for 16777216 seconds and ticked with the positive delta times 16777216,
1, 1, 1 is still running after the four frames and has emitted no rotation-ended
event, although the delta times add up to 16777219: each `TimeElapsed += 1`
rounds back to 16777216. -/
theorem float_rounding_keeps_task_running :
    (∀ t ∈ floatFrames, (0 : WholeFloat) < t.1 ∧ t.2.supplies = true) ∧
    (floatFrames.map (fun t => t.1.value)).sum = 16777219 ∧
    (runTicks (StartRotating ⟨16777216⟩ ⟨540⟩ floatIdle : RotatingResult WholeFloat Int).2
        floatFrames).2.map (fun c => (c.bIsRotating, c.TimeElapsed, c.RotatingTime))
      = some (true, ⟨16777216⟩, ⟨16777216⟩) ∧
    rotatingEndCount
      (runTicks (StartRotating ⟨16777216⟩ ⟨540⟩ floatIdle : RotatingResult WholeFloat Int).2
        floatFrames).1 = 0 := by
  decide

/-! ## C7: what the update leaves in the cache -/

theorem TMap.Find_Add (m : TMap) (k key : FName) (v : FVector) :
    TMap.Find (TMap.Add m k v) key = if k = key then some v else TMap.Find m key := by
  induction m with
  | nil => simp [TMap.Add, TMap.Find]
  | cons kv rest ih =>
    obtain ⟨k1, v1⟩ := kv
    unfold TMap.Add
    by_cases h1 : k1 = k
    · subst h1
      by_cases h2 : k1 = key
      · simp [TMap.Find, h2]
      · simp [TMap.Find, h2]
    · by_cases h2 : k = key
      · subst h2
        simp [TMap.Find, h1, ih]
      · by_cases h3 : k1 = key
        · subst h3
          simp [TMap.Find, h1, h2]
        · simp [TMap.Find, h1, h2, h3, ih]

theorem lastSampleOr_append (p q : List (FName × FVector)) (key : FName) :
    ∀ old, lastSampleOr old (p ++ q) key = lastSampleOr (lastSampleOr old p key) q key := by
  induction p with
  | nil => intro old; rfl
  | cons kv rest ih =>
    intro old
    obtain ⟨k, v⟩ := kv
    simp only [List.cons_append, lastSampleOr]
    exact ih _

theorem sampleSockets_find (env : Env) (c : UPrimitiveComponent) (socks : List FName)
    (key : FName) :
    ∀ m : TMap, TMap.Find (sampleSockets env c socks m) key =
      lastSampleOr (TMap.Find m key)
        (socks.map fun socketName =>
          (GenerateUniqueSocketName env c socketName,
            FCCCollidingComponent.GetSocketLocation env c socketName)) key := by
  induction socks with
  | nil => intro m; rfl
  | cons sock rest ih =>
    intro m
    simp only [sampleSockets, List.map_cons, lastSampleOr]
    rw [ih, TMap.Find_Add]

theorem sampleComponents_find (env : Env) (l : List FCCCollidingComponent) (key : FName) :
    ∀ m : TMap, TMap.Find (sampleComponents env l m) key =
      lastSampleOr (TMap.Find m key) (trackedPoints env l) key := by
  induction l with
  | nil => intro m; rfl
  | cons surf rest ih =>
    intro m
    unfold sampleComponents trackedPoints
    rw [lastSampleOr_append]
    split
    · split
      · rw [ih, sampleSockets_find]
      · rw [ih]; rfl
    · rw [ih]; rfl

theorem lastSampleOr_cases (pts : List (FName × FVector)) (key : FName) :
    ∀ old, (lastSampleOr old pts key = old ∧ ∀ v, (key, v) ∉ pts) ∨
      ∃ w, lastSampleOr old pts key = some w ∧ (key, w) ∈ pts := by
  induction pts with
  | nil => intro old; exact Or.inl ⟨rfl, fun v h => by simp at h⟩
  | cons kv rest ih =>
    intro old
    obtain ⟨k, v⟩ := kv
    simp only [lastSampleOr]
    by_cases hk : k = key
    · subst hk
      simp only [if_true]
      rcases ih (some v) with ⟨heq, hno⟩ | ⟨w, hw, hmem⟩
      · exact Or.inr ⟨v, heq, List.mem_cons_self _ _⟩
      · exact Or.inr ⟨w, hw, List.mem_cons_of_mem _ hmem⟩
    · simp only [hk, if_false]
      rcases ih old with ⟨heq, hno⟩ | ⟨w, hw, hmem⟩
      · refine Or.inl ⟨heq, ?_⟩
        intro v0 hv0
        rcases List.mem_cons.mp hv0 with h | h
        · exact hk (Prod.mk.inj h).1.symm
        · exact hno v0 h
      · exact Or.inr ⟨w, hw, List.mem_cons_of_mem _ hmem⟩

theorem lastSampleOr_of_unique (pts : List (FName × FVector)) (key : FName) (v : FVector)
    (old : Option FVector) (hmem : (key, v) ∈ pts)
    (huniq : ∀ w, (key, w) ∈ pts → w = v) : lastSampleOr old pts key = some v := by
  rcases lastSampleOr_cases pts key old with ⟨_, hno⟩ | ⟨w, hw, hwmem⟩
  · exact absurd hmem (hno v)
  · rw [hw, huniq w hwmem]

theorem trackedPoints_mem (env : Env) (l : List FCCCollidingComponent)
    (surf : FCCCollidingComponent) (c : UPrimitiveComponent) (sock : FName)
    (hsurf : surf ∈ l) (hc : surf.Component = some c) (hv : env.IsValid c = true)
    (hsock : sock ∈ surf.Sockets) :
    (GenerateUniqueSocketName env c sock, FCCCollidingComponent.GetSocketLocation env c sock)
      ∈ trackedPoints env l := by
  induction l with
  | nil => simp at hsurf
  | cons s0 rest ih =>
    unfold trackedPoints
    rcases List.mem_cons.mp hsurf with rfl | h
    · apply List.mem_append_left
      simp only [hc, hv, if_true]
      exact List.mem_map.mpr ⟨sock, hsock, rfl⟩
    · exact List.mem_append_right _ (ih h)

/-! ## C7: every hit event is a result of the backend -/

theorem reportHits_provenance (cfg : Settings) (env : Env) (idx : Nat)
    (c : UPrimitiveComponent) (hits : List FHitResult) :
    ∀ hitActors, ∀ e ∈ (reportHits cfg env idx c hits hitActors).1,
      ∃ h a, e = Event.Hit idx h c ∧ h ∈ hits ∧ h.Actor = some a ∧ a ∉ hitActors ∧
        IsIgnoredClass cfg (env.GetClass a) = false ∧
        IsIgnoredProfileName cfg h.ProfileName = false := by
  induction hits with
  | nil => intro hitActors e he; simp [reportHits] at he
  | cons h0 rest ih =>
    intro hitActors e he
    have hlift : ∀ ha1, (∀ x, x ∉ ha1 → x ∉ hitActors) →
        e ∈ (reportHits cfg env idx c rest ha1).1 →
        ∃ h a, e = Event.Hit idx h c ∧ h ∈ h0 :: rest ∧ h.Actor = some a ∧ a ∉ hitActors ∧
          IsIgnoredClass cfg (env.GetClass a) = false ∧
          IsIgnoredProfileName cfg h.ProfileName = false := by
      intro ha1 hsub he1
      obtain ⟨h, a, h1, h2, h3, h4, h5, h6⟩ := ih ha1 e he1
      exact ⟨h, a, h1, List.mem_cons_of_mem _ h2, h3, hsub a h4, h5, h6⟩
    unfold reportHits at he
    split at he
    · rename_i b hb
      split at he
      · rename_i hcond
        simp only [Bool.and_eq_true, beq_iff_eq] at hcond
        simp only [List.mem_cons] at he
        rcases he with rfl | he
        · refine ⟨h0, b, rfl, List.mem_cons_self _ _, hb, ?_, hcond.1.2, hcond.2⟩
          intro hmem
          have := hcond.1.1
          simp [hmem] at this
        · exact hlift _ (fun x hx hmem => hx (List.mem_append_left _ hmem)) he
      · exact hlift _ (fun x hx => hx) he
    · exact hlift _ (fun x hx => hx) he

theorem traceSockets_provenance (cfg : Settings) (env : Env) (cache : TMap) (idx : Nat)
    (c : UPrimitiveComponent) (socks : List FName) :
    ∀ hitActors, ∀ e ∈ (traceSockets cfg env cache idx c socks hitActors).1,
      ∃ sock startTrace added h a,
        sock ∈ socks ∧
        TMap.Find cache (GenerateUniqueSocketName env c sock) = some startTrace ∧
        (sweepOf cfg env c sock startTrace (hitActors ++ added)).1 = true ∧
        h ∈ (sweepOf cfg env c sock startTrace (hitActors ++ added)).2 ∧
        e = Event.Hit idx h c ∧ h.Actor = some a ∧ a ∉ hitActors ++ added ∧
        IsIgnoredClass cfg (env.GetClass a) = false ∧
        IsIgnoredProfileName cfg h.ProfileName = false := by
  induction socks with
  | nil => intro hitActors e he; simp [traceSockets] at he
  | cons sock rest ih =>
    intro hitActors e he
    unfold traceSockets at he
    split at he
    · simp at he
    · rename_i startTrace hfind
      simp only at he
      have hrest : ∀ added1,
          e ∈ (traceSockets cfg env cache idx c rest (hitActors ++ added1)).1 →
          ∃ sock1 startTrace1 added h a,
            sock1 ∈ sock :: rest ∧
            TMap.Find cache (GenerateUniqueSocketName env c sock1) = some startTrace1 ∧
            (sweepOf cfg env c sock1 startTrace1 (hitActors ++ added)).1 = true ∧
            h ∈ (sweepOf cfg env c sock1 startTrace1 (hitActors ++ added)).2 ∧
            e = Event.Hit idx h c ∧ h.Actor = some a ∧ a ∉ hitActors ++ added ∧
            IsIgnoredClass cfg (env.GetClass a) = false ∧
            IsIgnoredProfileName cfg h.ProfileName = false := by
        intro added1 he1
        obtain ⟨sock1, st1, added2, h, a, h1, h2, h3, h4, h5, h6, h7, h8, h9⟩ :=
          ih (hitActors ++ added1) e he1
        refine ⟨sock1, st1, added1 ++ added2, h, a, List.mem_cons_of_mem _ h1, h2, ?_, ?_, h5,
          h6, ?_, h8, h9⟩
        · rw [← List.append_assoc]; exact h3
        · rw [← List.append_assoc]; exact h4
        · rw [← List.append_assoc]; exact h7
      rcases List.mem_append.mp he with he | he
      · split at he
        · rename_i hflag
          obtain ⟨h, a, h1, h2, h3, h4, h5, h6⟩ :=
            reportHits_provenance cfg env idx c _ hitActors e he
          refine ⟨sock, startTrace, [], h, a, List.mem_cons_self _ _, hfind, ?_, ?_, h1, h3, ?_,
            h5, h6⟩
          · simpa [sweepOf] using hflag
          · simpa [sweepOf] using h2
          · simpa using h4
        · simp at he
      · split at he
        · obtain ⟨_, added1, hadd, _⟩ := reportHits_qualify cfg env idx c
            (env.SphereTraceMultiForObjects startTrace
              (FCCCollidingComponent.GetSocketLocation env c sock)
              (hitActors.map some ++ [env.GetOwner] ++ cfg.IgnoredActors)).2 hitActors
          rw [hadd] at he
          exact hrest added1 he
        · exact hrest [] (by simpa using he)

theorem traceSurface_provenance (cfg : Settings) (env : Env) (cache : TMap) (idx : Nat)
    (surf : FCCCollidingComponent) :
    ∀ e ∈ (traceSurface cfg env cache idx surf).1, SweptHit cfg env cache idx surf e := by
  intro e he
  unfold traceSurface at he
  split at he
  · rename_i c hc
    split at he
    · rename_i hv
      obtain ⟨sock, st, added, h, a, h1, h2, h3, h4, h5, h6, h7, h8, h9⟩ :=
        traceSockets_provenance cfg env cache idx c _ _ e he
      exact ⟨c, sock, st, added, h, a, hc, hv, h1, h2, h3, h4, h5, h6, h7, h8, h9⟩
    · simp at he
  · simp at he

theorem traceComponents_provenance (cfg : Settings) (env : Env) (cache : TMap)
    (l : List FCCCollidingComponent) :
    ∀ k, ∀ e ∈ (traceComponents cfg env cache k l).1,
      ∃ j surf, l[j]? = some surf ∧ SweptHit cfg env cache (k + j) surf e := by
  induction l with
  | nil => intro k e he; simp [traceComponents] at he
  | cons surf rest ih =>
    intro k e he
    have hhere := traceSurface_provenance cfg env cache k surf
    have htail : e ∈ (traceComponents cfg env cache (k + 1) rest).1 →
        ∃ j surf1, (surf :: rest)[j]? = some surf1 ∧
          SweptHit cfg env cache (k + j) surf1 e := by
      intro he1
      obtain ⟨j, surf1, hj, hs⟩ := ih (k + 1) e he1
      refine ⟨j + 1, surf1, by simpa using hj, ?_⟩
      have hidx : k + (j + 1) = k + 1 + j := by omega
      rw [hidx]
      exact hs
    unfold traceComponents at he
    rcases hs : traceSurface cfg env cache k surf with ⟨ev, _ | ha⟩
    · rw [hs] at he hhere
      exact ⟨0, surf, by simp, hhere e he⟩
    · rw [hs] at he hhere
      rcases List.mem_append.mp he with he | he
      · exact ⟨0, surf, by simp, hhere e he⟩
      · exact htail he

theorem PerformTraceCheck_provenance (cfg : Settings) (env : Env) (s : State) :
    ∀ e ∈ (PerformTraceCheck cfg env s).1,
      ∃ idx surf, s.ActiveCollidingComponents[idx]? = some surf ∧
        SweptHit cfg env s.LastFrameSocketLocations idx surf e := by
  intro e he
  obtain ⟨j, surf, hj, hs⟩ := traceComponents_provenance cfg env _ _ 0 e he
  rw [Nat.zero_add] at hs
  exact ⟨j, surf, hj, hs⟩

/-! ## C7: the hit events of a surface are what its record gains -/

theorem actorsOfSurface_append (idx : Nat) (l1 l2 : List Event) :
    actorsOfSurface idx (l1 ++ l2) = actorsOfSurface idx l1 ++ actorsOfSurface idx l2 := by
  simp [actorsOfSurface, List.filterMap_append]

theorem actorsOfSurface_of_other_surface (idx : Nat) (log : List Event)
    (h : ∀ e ∈ log, ∃ i hr c, i ≠ idx ∧ e = Event.Hit i hr c) :
    actorsOfSurface idx log = [] := by
  induction log with
  | nil => rfl
  | cons e rest ih =>
    obtain ⟨i, hr, c, hne, rfl⟩ := h _ (List.mem_cons_self _ _)
    have := ih (fun e he => h e (List.mem_cons_of_mem _ he))
    simp only [actorsOfSurface, List.filterMap_cons, hne, if_false] at this ⊢
    exact this

theorem reportHits_records (cfg : Settings) (env : Env) (idx : Nat) (c : UPrimitiveComponent)
    (hits : List FHitResult) :
    ∀ hitActors, (reportHits cfg env idx c hits hitActors).2 =
      hitActors ++ actorsOfSurface idx (reportHits cfg env idx c hits hitActors).1 := by
  induction hits with
  | nil => intro hitActors; simp [reportHits, actorsOfSurface]
  | cons h rest ih =>
    intro hitActors
    unfold reportHits
    split
    · rename_i b hb
      split
      · simp only
        rw [ih (hitActors ++ [b])]
        simp [actorsOfSurface, List.filterMap_cons, hb]
      · exact ih hitActors
    · exact ih hitActors

theorem traceSockets_records (cfg : Settings) (env : Env) (cache : TMap) (idx : Nat)
    (c : UPrimitiveComponent) (socks : List FName) :
    ∀ hitActors r, (traceSockets cfg env cache idx c socks hitActors).2 = some r →
      r = hitActors ++ actorsOfSurface idx (traceSockets cfg env cache idx c socks hitActors).1 := by
  induction socks with
  | nil =>
    intro hitActors r hr
    simp only [traceSockets, Option.some.injEq] at hr
    simp [traceSockets, actorsOfSurface, hr]
  | cons sock rest ih =>
    intro hitActors r hr
    unfold traceSockets at hr ⊢
    split at hr
    · simp at hr
    · rename_i startTrace hfind
      simp only [hfind] at hr ⊢
      split at hr
      · rename_i hflag
        simp only [hflag, if_true] at hr ⊢
        rw [ih _ r hr, actorsOfSurface_append, ← List.append_assoc, ← reportHits_records]
      · rename_i hflag
        simp only [hflag] at hr ⊢
        simp only [Bool.false_eq_true, if_false, List.nil_append] at hr ⊢
        exact ih _ r hr

theorem traceSurface_records (cfg : Settings) (env : Env) (cache : TMap) (idx : Nat)
    (surf : FCCCollidingComponent) (r : List AActor)
    (hr : (traceSurface cfg env cache idx surf).2 = some r) :
    r = surf.HitActors ++ actorsOfSurface idx (traceSurface cfg env cache idx surf).1 := by
  unfold traceSurface at hr ⊢
  split
  · rename_i c hc
    simp only [hc] at hr
    split
    · rename_i hv
      simp only [hv, if_true] at hr
      exact traceSockets_records cfg env cache idx c _ _ r hr
    · rename_i hv
      simp only [hv] at hr
      simp only [Bool.false_eq_true, if_false, Option.some.injEq] at hr
      simp [actorsOfSurface, hr]
  · rename_i hc
    simp only [hc, Option.some.injEq] at hr
    simp [actorsOfSurface, hr]

theorem traceComponents_records (cfg : Settings) (env : Env) (cache : TMap)
    (l : List FCCCollidingComponent) :
    ∀ k r, (traceComponents cfg env cache k l).2 = some r →
      ∀ j, hitActorsAt r j =
        hitActorsAt l j ++ actorsOfSurface (k + j) (traceComponents cfg env cache k l).1 := by
  induction l with
  | nil =>
    intro k r hr j
    simp only [traceComponents, Option.some.injEq] at hr
    simp [traceComponents, actorsOfSurface, ← hr]
  | cons surf rest ih =>
    intro k r hr j
    have hrec := traceSurface_records cfg env cache k surf
    have hev := traceSurface_events cfg env cache k surf
    unfold traceComponents at hr ⊢
    rcases hs : traceSurface cfg env cache k surf with ⟨ev, _ | ha⟩
    · rw [hs] at hr
      simp at hr
    · rw [hs] at hr hrec hev
      simp only [Option.map_eq_some'] at hr
      obtain ⟨l1, hl1, rfl⟩ := hr
      simp only [actorsOfSurface_append]
      cases j with
      | zero =>
        have hz : actorsOfSurface (k + 0) (traceComponents cfg env cache (k + 1) rest).1 = [] := by
          apply actorsOfSurface_of_other_surface
          intro e he
          obtain ⟨i, h, c, hle, rfl⟩ := traceComponents_events cfg env cache rest (k + 1) e he
          exact ⟨i, h, c, by omega, rfl⟩
        rw [hz, hitActorsAt_cons_zero, hitActorsAt_cons_zero, List.append_nil]
        simpa using hrec ha rfl
      | succ j1 =>
        have hz : actorsOfSurface (k + (j1 + 1)) ev = [] := by
          apply actorsOfSurface_of_other_surface
          intro e he
          obtain ⟨h, c, rfl⟩ := hev e he
          exact ⟨k, h, c, by omega, rfl⟩
        have hidx : k + (j1 + 1) = k + 1 + j1 := by omega
        rw [hz, hitActorsAt_cons_succ, hitActorsAt_cons_succ, List.nil_append, hidx]
        exact ih (k + 1) l1 hl1 j1

theorem PerformTraceCheck_records (cfg : Settings) (env : Env) (s s1 : State)
    (h : (PerformTraceCheck cfg env s).2 = some s1) (idx : Nat) :
    hitActorsAt s1.ActiveCollidingComponents idx =
      hitActorsAt s.ActiveCollidingComponents idx ++
        actorsOfSurface idx (PerformTraceCheck cfg env s).1 := by
  unfold PerformTraceCheck at h
  simp only [Option.map_eq_some'] at h
  obtain ⟨l, hl, rfl⟩ := h
  have := traceComponents_records cfg env s.LastFrameSocketLocations
    s.ActiveCollidingComponents 0 l hl idx
  rw [Nat.zero_add] at this
  exact this

/-! ## C7: every actor the backend reports is recorded -/

theorem reportHits_keeps (cfg : Settings) (env : Env) (idx : Nat) (c : UPrimitiveComponent)
    (hits : List FHitResult) (hitActors : List AActor) (a : AActor) (h : a ∈ hitActors) :
    a ∈ (reportHits cfg env idx c hits hitActors).2 := by
  rw [reportHits_records]
  exact List.mem_append_left _ h

theorem reportHits_complete (cfg : Settings) (env : Env) (idx : Nat) (c : UPrimitiveComponent)
    (a : AActor) (hcls : IsIgnoredClass cfg (env.GetClass a) = false) (hits : List FHitResult) :
    ∀ hitActors, ∀ h ∈ hits, h.Actor = some a →
      IsIgnoredProfileName cfg h.ProfileName = false →
      a ∈ (reportHits cfg env idx c hits hitActors).2 := by
  induction hits with
  | nil => intro hitActors h hh; simp at hh
  | cons h0 rest ih =>
    intro hitActors h hh hact hprof
    unfold reportHits
    rcases List.mem_cons.mp hh with rfl | hh
    · simp only [hact]
      split
      · exact reportHits_keeps cfg env idx c rest _ a (List.mem_append_right _ (by simp))
      · rename_i hcond
        simp only [hcls, hprof, beq_self_eq_true, Bool.and_true, beq_iff_eq,
          Bool.not_eq_false] at hcond
        apply reportHits_keeps
        simpa using hcond
    · split
      · split
        · exact ih _ h hh hact hprof
        · exact ih _ h hh hact hprof
      · exact ih _ h hh hact hprof

theorem traceSockets_keeps (cfg : Settings) (env : Env) (cache : TMap) (idx : Nat)
    (c : UPrimitiveComponent) (socks : List FName) (hitActors r : List AActor) (a : AActor)
    (hr : (traceSockets cfg env cache idx c socks hitActors).2 = some r) (h : a ∈ hitActors) :
    a ∈ r := by
  rw [traceSockets_records cfg env cache idx c socks hitActors r hr]
  exact List.mem_append_left _ h

theorem traceSockets_complete (cfg : Settings) (env : Env) (cache : TMap) (idx : Nat)
    (c : UPrimitiveComponent) (a : AActor) (sock : FName) (startTrace : FVector)
    (hfind : TMap.Find cache (GenerateUniqueSocketName env c sock) = some startTrace)
    (hcls : IsIgnoredClass cfg (env.GetClass a) = false)
    (hback : BackendReports cfg env c sock startTrace a) (socks : List FName) :
    ∀ hitActors r, sock ∈ socks →
      (traceSockets cfg env cache idx c socks hitActors).2 = some r → a ∈ r := by
  induction socks with
  | nil => intro hitActors r hs; simp at hs
  | cons s0 rest ih =>
    intro hitActors r hs hr
    unfold traceSockets at hr
    split at hr
    · simp at hr
    · rename_i st0 hfind0
      simp only at hr
      rcases List.mem_cons.mp hs with rfl | hs
      · rw [hfind] at hfind0
        simp only [Option.some.injEq] at hfind0
        subst hfind0
        by_cases hmem : a ∈ hitActors
        · apply traceSockets_keeps cfg env cache idx c rest _ r a hr
          split
          · exact reportHits_keeps cfg env idx c _ _ a hmem
          · exact hmem
        · obtain ⟨hflag, h, hh, hact, hprof⟩ := hback hitActors hmem
          simp only [sweepOf] at hflag hh
          apply traceSockets_keeps cfg env cache idx c rest _ r a hr
          simp only [hflag, if_true]
          exact reportHits_complete cfg env idx c a hcls _ hitActors h hh hact hprof
      · exact ih _ r hs hr

theorem traceSurface_complete (cfg : Settings) (env : Env) (cache : TMap) (idx : Nat)
    (surf : FCCCollidingComponent) (c : UPrimitiveComponent) (a : AActor) (sock : FName)
    (startTrace : FVector) (r : List AActor)
    (hc : surf.Component = some c) (hv : env.IsValid c = true) (hs : sock ∈ surf.Sockets)
    (hfind : TMap.Find cache (GenerateUniqueSocketName env c sock) = some startTrace)
    (hcls : IsIgnoredClass cfg (env.GetClass a) = false)
    (hback : BackendReports cfg env c sock startTrace a)
    (hr : (traceSurface cfg env cache idx surf).2 = some r) : a ∈ r := by
  unfold traceSurface at hr
  simp only [hc, hv, if_true] at hr
  exact traceSockets_complete cfg env cache idx c a sock startTrace hfind hcls hback _ _ r hs hr

theorem traceComponents_complete (cfg : Settings) (env : Env) (cache : TMap)
    (c : UPrimitiveComponent) (a : AActor) (sock : FName) (startTrace : FVector)
    (hv : env.IsValid c = true)
    (hfind : TMap.Find cache (GenerateUniqueSocketName env c sock) = some startTrace)
    (hcls : IsIgnoredClass cfg (env.GetClass a) = false)
    (hback : BackendReports cfg env c sock startTrace a) (l : List FCCCollidingComponent) :
    ∀ k r j surf, (traceComponents cfg env cache k l).2 = some r →
      l[j]? = some surf → surf.Component = some c → sock ∈ surf.Sockets →
      a ∈ hitActorsAt r j := by
  induction l with
  | nil => intro k r j surf _ hj; simp at hj
  | cons s0 rest ih =>
    intro k r j surf hr hj hc hs
    unfold traceComponents at hr
    rcases hts : traceSurface cfg env cache k s0 with ⟨ev, _ | ha⟩
    · rw [hts] at hr
      simp at hr
    · rw [hts] at hr
      simp only [Option.map_eq_some'] at hr
      obtain ⟨l1, hl1, rfl⟩ := hr
      cases j with
      | zero =>
        simp only [List.getElem?_cons_zero, Option.some.injEq] at hj
        subst hj
        rw [hitActorsAt_cons_zero]
        exact traceSurface_complete cfg env cache k s0 c a sock startTrace ha hc hv hs hfind
          hcls hback (by rw [hts])
      | succ j1 =>
        simp only [List.getElem?_cons_succ] at hj
        rw [hitActorsAt_cons_succ]
        exact ih (k + 1) l1 j1 surf hl1 hj hc hs

theorem PerformTraceCheck_complete (cfg : Settings) (env : Env) (s s1 : State)
    (h : (PerformTraceCheck cfg env s).2 = some s1) (idx : Nat) (surf : FCCCollidingComponent)
    (c : UPrimitiveComponent) (a : AActor) (sock : FName) (startTrace : FVector)
    (hsurf : s.ActiveCollidingComponents[idx]? = some surf)
    (hc : surf.Component = some c) (hv : env.IsValid c = true) (hs : sock ∈ surf.Sockets)
    (hfind : TMap.Find s.LastFrameSocketLocations (GenerateUniqueSocketName env c sock)
      = some startTrace)
    (hcls : IsIgnoredClass cfg (env.GetClass a) = false)
    (hback : BackendReports cfg env c sock startTrace a) :
    a ∈ hitActorsAt s1.ActiveCollidingComponents idx := by
  unfold PerformTraceCheck at h
  simp only [Option.map_eq_some'] at h
  obtain ⟨l, hl, rfl⟩ := h
  exact traceComponents_complete cfg env _ c a sock startTrace hv hfind hcls hback _ 0 l idx
    surf hl hsurf hc hs

/-! ## C7: a trace check right after a registry update (statement) -/

/-- C7 (as amended): right after `UpdateCollidingComponents`, every hit record is
empty and the cache holds, under every key, the position the update sampled
last under that key (what was there before if it sampled none): for a tracked
point that shares its key with no point sampled elsewhere, its own position. A
`PerformTraceCheck` made before any further resample then reports the trace
backend and nothing else: every hit event it emits carries a result that the
backend returned, flagged as a hit, for the sweep of a tracked point of a valid
component from its cached position to its current position, with an actor not
yet recorded by the surface and a class and profile that are not ignored; no
pair of surface and actor is reported twice; the record of each surface ends as
exactly the actors reported for it, in order; and every actor of a class that
is not ignored that the backend reports for such a sweep, on a profile that is
not ignored, is reported. So it emits no hit event when the backend reports no
hit. It finds a cached position for every point it visits when the tracked
components valid at the trace were valid, with the same name, at the update. -/
theorem sweep_after_update_reports_only_backend_hits (cfg : Settings) (env env1 : Env)
    (S : List FCCCollidingComponent) (s s1 : State)
    (hs1 : s1 = UpdateCollidingComponents env S s) :
    (∀ surf ∈ s1.ActiveCollidingComponents, surf.HitActors = []) ∧
    (∀ key, TMap.Find s1.LastFrameSocketLocations key =
      lastSampleOr (TMap.Find s.LastFrameSocketLocations key)
        (trackedPoints env s1.ActiveCollidingComponents) key) ∧
    (∀ surf ∈ s1.ActiveCollidingComponents, ∀ c sock,
      surf.Component = some c → env.IsValid c = true → env.GetName c = env1.GetName c →
      sock ∈ surf.Sockets →
      (∀ w, (GenerateUniqueSocketName env c sock, w)
          ∈ trackedPoints env s1.ActiveCollidingComponents →
        w = FCCCollidingComponent.GetSocketLocation env c sock) →
      TMap.Find s1.LastFrameSocketLocations (GenerateUniqueSocketName env1 c sock)
        = some (FCCCollidingComponent.GetSocketLocation env c sock)) ∧
    (∀ e ∈ (PerformTraceCheck cfg env1 s1).1,
      ∃ idx surf, s1.ActiveCollidingComponents[idx]? = some surf ∧
        SweptHit cfg env1 s1.LastFrameSocketLocations idx surf e) ∧
    (∀ idx a, hitCount idx a (PerformTraceCheck cfg env1 s1).1 ≤ 1) ∧
    (∀ s2, (PerformTraceCheck cfg env1 s1).2 = some s2 →
      (∀ idx, hitActorsAt s2.ActiveCollidingComponents idx
        = actorsOfSurface idx (PerformTraceCheck cfg env1 s1).1) ∧
      (∀ idx surf c sock startTrace a,
        s1.ActiveCollidingComponents[idx]? = some surf → surf.Component = some c →
        env1.IsValid c = true → sock ∈ surf.Sockets →
        TMap.Find s1.LastFrameSocketLocations (GenerateUniqueSocketName env1 c sock)
          = some startTrace →
        IsIgnoredClass cfg (env1.GetClass a) = false →
        BackendReports cfg env1 c sock startTrace a →
        a ∈ actorsOfSurface idx (PerformTraceCheck cfg env1 s1).1)) ∧
    ((∀ st en ign, (env1.SphereTraceMultiForObjects st en ign).1 = false) →
      (PerformTraceCheck cfg env1 s1).1 = []) ∧
    (ValidSince env env1 s1.ActiveCollidingComponents →
      ((PerformTraceCheck cfg env1 s1).2).isSome = true ∧
      ((∀ st en ign, (env1.SphereTraceMultiForObjects st en ign).1 = false) →
        PerformTraceCheck cfg env1 s1 = ([], some s1))) := by
  have hcache : ∀ key, TMap.Find s1.LastFrameSocketLocations key =
      lastSampleOr (TMap.Find s.LastFrameSocketLocations key)
        (trackedPoints env s1.ActiveCollidingComponents) key := by
    intro key
    subst hs1
    exact sampleComponents_find env _ key s.LastFrameSocketLocations
  have hempty : ∀ idx, hitActorsAt s1.ActiveCollidingComponents idx = [] := by
    intro idx
    subst hs1
    exact hitActorsAt_ClearHitActors { s with ActiveCollidingComponents := S } idx
  refine ⟨?_, hcache, ?_, ?_, ?_, ?_, ?_, ?_⟩
  · intro surf hsurf
    subst hs1
    simp only [UpdateCollidingComponents, UpdateSocketLocations, ClearHitActors,
      List.mem_map] at hsurf
    obtain ⟨x, _, rfl⟩ := hsurf
    rfl
  · intro surf hsurf c sock hc hv hname hsock huniq
    have hkey : GenerateUniqueSocketName env1 c sock = GenerateUniqueSocketName env c sock := by
      simp [GenerateUniqueSocketName, hname]
    rw [hkey, hcache]
    exact lastSampleOr_of_unique _ _ _ _
      (trackedPoints_mem env _ surf c sock hsurf hc hv hsock) huniq
  · exact PerformTraceCheck_provenance cfg env1 s1
  · intro idx a
    exact (PerformTraceCheck_fresh cfg env1 s1 idx a).1
  · intro s2 hs2
    have hrec : ∀ idx, hitActorsAt s2.ActiveCollidingComponents idx
        = actorsOfSurface idx (PerformTraceCheck cfg env1 s1).1 := by
      intro idx
      rw [PerformTraceCheck_records cfg env1 s1 s2 hs2 idx, hempty idx, List.nil_append]
    refine ⟨hrec, ?_⟩
    intro idx surf c sock startTrace a hsurf hc hv hsock hfind hcls hback
    rw [← hrec idx]
    exact PerformTraceCheck_complete cfg env1 s1 s2 hs2 idx surf c a sock startTrace hsurf hc hv
      hsock hfind hcls hback
  · intro hq
    exact traceComponents_silent cfg env1 _ hq _ 0
  · intro hv
    have hc : CacheCovers env1 s1 := by
      subst hs1
      exact CacheCovers_transfer env env1 _ (UpdateSocketLocations_covers env _) hv
    exact ⟨PerformTraceCheck_no_fault cfg env1 _ hc,
      fun hq => PerformTraceCheck_quiet cfg env1 _ hq hc⟩

theorem sweep_after_update_reports_only_backend_hits_witness :
    PerformTraceCheck demoSettings demoQuiet
        (UpdateCollidingComponents demoWorld
          [{ Component := some 0, Sockets := ["Tip"], HitActors := [7] }] demoActive)
      = ([], some (UpdateCollidingComponents demoWorld
          [{ Component := some 0, Sockets := ["Tip"], HitActors := [7] }] demoActive)) ∧
    7 ∈ actorsOfSurface 0 (PerformTraceCheck demoSettings demoWorld
        (UpdateCollidingComponents demoWorld
          [{ Component := some 0, Sockets := ["Tip"], HitActors := [7] }] demoActive)).1 := by
  refine ⟨((sweep_after_update_reports_only_backend_hits demoSettings demoWorld demoQuiet
    [{ Component := some 0, Sockets := ["Tip"], HitActors := [7] }] demoActive
    (UpdateCollidingComponents demoWorld
      [{ Component := some 0, Sockets := ["Tip"], HitActors := [7] }] demoActive) rfl).2.2.2.2.2.2.2
    (fun _ _ _ _ _ => ⟨rfl, rfl⟩)).2 (fun _ _ _ => rfl), ?_⟩
  have h := sweep_after_update_reports_only_backend_hits demoSettings demoWorld demoWorld
    [{ Component := some 0, Sockets := ["Tip"], HitActors := [7] }] demoActive
    (UpdateCollidingComponents demoWorld
      [{ Component := some 0, Sockets := ["Tip"], HitActors := [7] }] demoActive) rfl
  obtain ⟨s2, hs2⟩ := Option.isSome_iff_exists.mp
    (h.2.2.2.2.2.2.2 (fun _ _ _ _ _ => ⟨rfl, rfl⟩)).1
  exact (h.2.2.2.2.2.1 s2 hs2).2 0 { Component := some 0, Sockets := ["Tip"], HitActors := [] }
    0 "Tip" ⟨1, 0, 0⟩ 7 (by decide) rfl rfl (by simp) (by decide) (by decide)
    (fun _ _ => ⟨rfl, ⟨some 7, "CharacterMesh", ⟨0, 0, 0⟩⟩, by simp [sweepOf, demoWorld], rfl,
      by decide⟩)

end CombatComponents
